import Mathlib

/-! # golem-base/storageutil/entity : metadata codec and entity writer

A shallow embedding of `active_payload.go` (the `EntityMetaData` RLP codec with its
256-bit `blockInfo` packing) and of `store_entity.go` (`Store`).

Conventions of the embedding
* a Go `uint64` is a `Nat` below `2^64`, a `uint256.Int` is a `Nat` below `2^256`;
  every arithmetic step that can leave the range is reduced modulo the width explicitly;
* a byte is a `Nat` below `256`; a Go `string`, a `[]byte`, a `common.Address` and a
  `common.Hash` are lists of bytes;
* a Go `error` is a value of `GoError`; `nil` is `none`.
-/

namespace Entity

/-! ## Machine words -/

/-- The modulus of `uint64`. -/
def U64 : Nat := 2 ^ 64

/-- The modulus of `uint256.Int`. -/
def U256 : Nat := 2 ^ 256

/-- A sequence of bytes. -/
abbrev Bytes := List Nat

/-- Every element is a byte. -/
def isBytes (bs : Bytes) : Prop := ∀ b ∈ bs, b < 256

instance (bs : Bytes) : Decidable (isBytes bs) := by
  unfold isBytes; infer_instance

/-! ## `github.com/holiman/uint256` : the five operations the codec uses -/

namespace uint256

/-- Go `uint256.NewInt(x uint64)`. -/
def NewInt (x : Nat) : Nat := x % U64

/-- Go `z.Lsh(x, n)`: shift left inside 256 bits, the bits shifted out are lost. -/
def Lsh (x n : Nat) : Nat := (x * 2 ^ n) % U256

/-- Go `z.AddUint64(x, y)`: addition modulo `2^256`. -/
def AddUint64 (x y : Nat) : Nat := (x + y % U64) % U256

/-- Go `z.Uint64()`: the low 64 bits. -/
def Uint64 (x : Nat) : Nat := x % U64

/-- Go `z.Rsh(x, n)`: logical shift right. -/
def Rsh (x n : Nat) : Nat := x / 2 ^ n

end uint256

/-! ## Data model (`active_payload.go`) -/

/-- Go `type StringAnnotation struct { Key string; Value string }`. -/
structure StringAnnotation where
  Key : Bytes
  Value : Bytes
deriving DecidableEq, Repr

/-- Go `type NumericAnnotation struct { Key string; Value uint64 }`. -/
structure NumericAnnotation where
  Key : Bytes
  Value : Nat
deriving DecidableEq, Repr

/-- Go `type EntityMetaData struct`. -/
structure EntityMetaData where
  ExpiresAtBlock : Nat
  StringAnnotations : List StringAnnotation
  NumericAnnotations : List NumericAnnotation
  Owner : Bytes
  CreatedAtBlock : Nat
  LastModifiedAtBlock : Nat
  TransactionIndex : Nat
  OperationIndex : Nat
deriving DecidableEq, Repr

/-- Go `type EncodableEntityMetaData struct`: the wire form. -/
structure EncodableEntityMetaData where
  ExpiresAtBlock : Nat
  StringAnnotations : List StringAnnotation
  NumericAnnotations : List NumericAnnotation
  Owner : Bytes
  BlockInfo : Nat
deriving DecidableEq, Repr

/-- Lines 39-45 of `EncodeRLP`: the packed `blockInfo`. -/
def EncodeRLP.blockInfo (m : EntityMetaData) : Nat :=
  let blockInfo := uint256.NewInt m.OperationIndex
  let blockInfo := uint256.Lsh blockInfo 64
  let blockInfo := uint256.AddUint64 blockInfo m.TransactionIndex
  let blockInfo := uint256.Lsh blockInfo 64
  let blockInfo := uint256.AddUint64 blockInfo m.LastModifiedAtBlock
  let blockInfo := uint256.Lsh blockInfo 64
  let blockInfo := uint256.AddUint64 blockInfo m.CreatedAtBlock
  blockInfo

/-- Lines 39-53 of `EncodeRLP`: the wire-form record handed to `rlp.Encode`. -/
def EncodeRLP.encodable (m : EntityMetaData) : EncodableEntityMetaData :=
  { ExpiresAtBlock := m.ExpiresAtBlock
    StringAnnotations := m.StringAnnotations
    NumericAnnotations := m.NumericAnnotations
    Owner := m.Owner
    BlockInfo := EncodeRLP.blockInfo m }

/-- Lines 63-82 of `DecodeRLP`: the record assigned to `*m`, from the wire form that
`s.Decode` left in `encodable`. -/
def DecodeRLP.assemble (encodable : EncodableEntityMetaData) : EntityMetaData :=
  let blockInfo := encodable.BlockInfo
  let created := uint256.Uint64 blockInfo
  let blockInfo := uint256.Rsh blockInfo 64
  let lastModified := uint256.Uint64 blockInfo
  let blockInfo := uint256.Rsh blockInfo 64
  let transactionIndex := uint256.Uint64 blockInfo
  let blockInfo := uint256.Rsh blockInfo 64
  let operationIndex := uint256.Uint64 blockInfo
  { ExpiresAtBlock := encodable.ExpiresAtBlock
    StringAnnotations := encodable.StringAnnotations
    NumericAnnotations := encodable.NumericAnnotations
    Owner := encodable.Owner
    CreatedAtBlock := created
    LastModifiedAtBlock := lastModified
    TransactionIndex := transactionIndex
    OperationIndex := operationIndex }

/-! ## Go errors -/

/-- A Go `error` value: either a plain error (`errors.New`) or the `*fmt.wrapError` that
`fmt.Errorf` builds for a format with one `%w` verb. -/
inductive GoError where
  | errorString (s : String)
  | wrapError (msg : String) (err : GoError)
deriving DecidableEq, Repr

/-- Go `err.Error()`. -/
def GoError.Error : GoError → String
  | .errorString s => s
  | .wrapError msg _ => msg

/-- Go `errors.Unwrap(err)`. -/
def GoError.Unwrap : GoError → Option GoError
  | .errorString _ => none
  | .wrapError _ err => some err

/-- Go `fmt.Errorf(pfx + ": %w", err)`: the message is the prefix, a colon, a blank and
`err.Error()`; the result unwraps to `err`. -/
def Errorf_w (pfx : String) (err : GoError) : GoError :=
  .wrapError (pfx ++ ": " ++ err.Error) err

/-! ## The canonical binary encoding (`rlp`) -/

namespace rlp

/-- Modelled from the spec: the error values of the ledger's canonical decoder, which is
not among the sources; `rlp.EOL`. -/
def EOL : GoError := .errorString "rlp: end of list"
/-- Modelled from the spec: `rlp.ErrExpectedString`. -/
def ErrExpectedString : GoError := .errorString "rlp: expected String or Byte"
/-- Modelled from the spec: `rlp.ErrExpectedList`. -/
def ErrExpectedList : GoError := .errorString "rlp: expected List"
/-- Modelled from the spec: `rlp.ErrCanonInt`. -/
def ErrCanonInt : GoError := .errorString "rlp: non-canonical integer format"
/-- Modelled from the spec: `rlp.ErrCanonSize`. -/
def ErrCanonSize : GoError := .errorString "rlp: non-canonical size information"
/-- Modelled from the spec: `rlp.ErrValueTooLarge`, also standing for a short read. -/
def ErrValueTooLarge : GoError := .errorString "rlp: value size exceeds available input length"
/-- Modelled from the spec: the decoder's `uint overflow` error. -/
def errUintOverflow : GoError := .errorString "rlp: uint overflow"
/-- Modelled from the spec: a record with fewer items than fields. -/
def errTooFewElements : GoError := .errorString "rlp: too few elements"
/-- Modelled from the spec: a record with more items than fields. -/
def errTooManyElements : GoError := .errorString "rlp: input list has too many elements"
/-- Modelled from the spec: a byte array that does not have the array's size. -/
def errArraySize : GoError := .errorString "rlp: input string has the wrong size"
/-- Modelled from the spec: the element loop of a list ran out of steps (it cannot: every
element takes at least one byte of the payload). -/
def errLoop : GoError := .errorString "rlp: element loop exhausted"
/-- Modelled from the spec: `io.EOF`, the end of the input where a value should start. -/
def EOF : GoError := .errorString "EOF"

/-- Modelled from the spec: the zero value of `common.Address`. -/
def zeroAddress : Bytes := List.replicate 20 0

/-- Modelled from the spec: the minimal big-endian bytes of `n` put in front of `acc`;
`fuel` bounds the number of bytes. -/
def toBEAux : Nat → Nat → Bytes → Bytes
  | 0, _, acc => acc
  | fuel + 1, n, acc => if n = 0 then acc else toBEAux fuel (n / 256) (n % 256 :: acc)

/-- Modelled from the spec: the minimal big-endian bytes of `n` (no leading zero byte,
none at all for `0`). -/
def toBE (n : Nat) : Bytes := toBEAux n n []

/-- Modelled from the spec: the number that big-endian bytes denote. -/
def beValue (bs : Bytes) : Nat := bs.foldl (fun acc b => acc * 256 + b) 0

/-- Modelled from the spec: the size tag of canonical RLP. A size below 56 is added to
`smalltag`; a larger one is written big-endian after the byte `largetag` plus the number
of size bytes. -/
def puthead (smalltag largetag size : Nat) : Bytes :=
  if size < 56 then [smalltag + size]
  else (largetag + (toBE size).length) :: toBE size

/-- Modelled from the spec: canonical RLP of an unsigned integer (`uint64` and
`uint256.Int` alike): `0x80` for zero, the byte itself below 128, else the minimal
big-endian bytes as a string. -/
def writeUint (i : Nat) : Bytes :=
  if i = 0 then [0x80]
  else if i < 128 then [i]
  else (0x80 + (toBE i).length) :: toBE i

/-- Modelled from the spec: canonical RLP of a byte string (a Go `string`): a single byte
below `0x80` is its own encoding, every other string follows its size tag. -/
def writeString (b : Bytes) : Bytes :=
  match b with
  | [x] => if x < 0x80 then [x] else puthead 0x80 0xB7 1 ++ [x]
  | _ => puthead 0x80 0xB7 b.length ++ b

/-- Modelled from the spec: canonical RLP of a fixed-size byte array of two or more bytes
(`common.Address`): the size tag, then the bytes. -/
def writeByteArray (b : Bytes) : Bytes := puthead 0x80 0xB7 b.length ++ b

/-- Modelled from the spec: canonical RLP of a list with the given payload. -/
def writeList (payload : Bytes) : Bytes := puthead 0xC0 0xF7 payload.length ++ payload

/-- Modelled from the spec: the encodings of the elements of a slice, one after the other. -/
def writeElems {α : Type} (f : α → Bytes) : List α → Bytes
  | [] => []
  | a :: as => f a ++ writeElems f as

/-- Modelled from the spec: a `StringAnnotation` is the list `[Key, Value]`. -/
def writeStringAnn (a : StringAnnotation) : Bytes :=
  writeList (writeString a.Key ++ writeString a.Value)

/-- Modelled from the spec: a `NumericAnnotation` is the list `[Key, Value]`. -/
def writeNumericAnn (a : NumericAnnotation) : Bytes :=
  writeList (writeString a.Key ++ writeUint a.Value)

/-- Modelled from the spec: the payload of the record's list, the five fields in
declaration order. -/
def encodePayload (e : EncodableEntityMetaData) : Bytes :=
  writeUint e.ExpiresAtBlock
    ++ writeList (writeElems writeStringAnn e.StringAnnotations)
    ++ writeList (writeElems writeNumericAnn e.NumericAnnotations)
    ++ writeByteArray e.Owner
    ++ writeUint e.BlockInfo

/-- Modelled from the spec: `rlp.Encode(w, &encodable)` into an in-memory writer: the
canonical encoding of the wire-form record as one list. -/
def Encode (e : EncodableEntityMetaData) : Bytes := writeList (encodePayload e)

/-- Modelled from the spec: the three kinds of value a size tag announces. -/
inductive Kind where
  | Byte
  | String
  | List
deriving DecidableEq, Repr

/-- Modelled from the spec: `size` bytes read as a big-endian number (a size of sizes, or
an integer); two or more bytes must not start with a zero byte. -/
def readUint (size : Nat) (s : Bytes) : Except GoError (Nat × Bytes) :=
  if s.length < size then .error ErrValueTooLarge
  else if 2 ≤ size ∧ s.head? = some 0 then .error ErrCanonSize
  else .ok (beValue (s.take size), s.drop size)

/-- Modelled from the spec: the content of a value of `size` bytes, cut off the input; a
value larger than what is left of the input (or of the enclosing list) is an error. -/
def readFull (k : Kind) (size : Nat) (s : Bytes) : Except GoError (Kind × Bytes × Bytes) :=
  if s.length < size then .error ErrValueTooLarge
  else .ok (k, s.take size, s.drop size)

/-- Modelled from the spec: the value ahead in the stream: its kind, its content (the byte
itself, the bytes of a string, the payload of a list) and the input after it. At the end of
the input (of the enclosing list) the result is `EOL`. A long size tag must be minimal and
announce at least 56 bytes. -/
def next : Bytes → Except GoError (Kind × Bytes × Bytes)
  | [] => .error EOL
  | b :: s =>
    if b < 0x80 then .ok (.Byte, [b], s)
    else if b < 0xB8 then readFull .String (b - 0x80) s
    else if b < 0xC0 then
      match readUint (b - 0xB7) s with
      | .error e => .error e
      | .ok (size, s1) => if size < 56 then .error ErrCanonSize else readFull .String size s1
    else if b < 0xF8 then readFull .List (b - 0xC0) s
    else
      match readUint (b - 0xF7) s with
      | .error e => .error e
      | .ok (size, s1) => if size < 56 then .error ErrCanonSize else readFull .List size s1

/-- Modelled from the spec: a field of a record read at the end of the record's list is
the error `too few elements`. -/
def field {α : Type} (r : Except GoError α) : Except GoError α :=
  match r with
  | .error e => if e = EOL then .error errTooFewElements else .error e
  | .ok a => .ok a

/-- Modelled from the spec: decoding an unsigned integer of at most `maxBytes` bytes
(8 for `uint64`, 32 for `uint256.Int`); only the canonical form is accepted. -/
def decodeUint (maxBytes : Nat) (s : Bytes) : Except GoError (Nat × Bytes) :=
  match next s with
  | .error e => .error e
  | .ok (.Byte, c, rest) => if beValue c = 0 then .error ErrCanonInt else .ok (beValue c, rest)
  | .ok (.String, c, rest) =>
    if maxBytes < c.length then .error errUintOverflow
    else if c.head? = some 0 then .error ErrCanonInt
    else if c.length = 1 ∧ beValue c < 128 then .error ErrCanonSize
    else .ok (beValue c, rest)
  | .ok (.List, _, _) => .error ErrExpectedString

/-- Modelled from the spec: decoding a Go `string`; a one-byte string below 128 must have
been written as the byte itself. -/
def decodeString (s : Bytes) : Except GoError (Bytes × Bytes) :=
  match next s with
  | .error e => .error e
  | .ok (.Byte, c, rest) => .ok (c, rest)
  | .ok (.String, c, rest) =>
    if c.length = 1 ∧ beValue c < 128 then .error ErrCanonSize else .ok (c, rest)
  | .ok (.List, _, _) => .error ErrExpectedString

/-- Modelled from the spec: decoding a byte array of `n` bytes, `n` at least two
(`common.Address`, `n = 20`): a string of exactly `n` bytes. -/
def decodeByteArray (n : Nat) (s : Bytes) : Except GoError (Bytes × Bytes) :=
  match next s with
  | .error e => .error e
  | .ok (.Byte, _, _) => .error errArraySize
  | .ok (.String, c, rest) => if c.length = n then .ok (c, rest) else .error errArraySize
  | .ok (.List, _, _) => .error ErrExpectedString

/-- Modelled from the spec: `Stream.List`: the value ahead must be a list; the result is
its payload and the input after it. -/
def decodeListStart (s : Bytes) : Except GoError (Bytes × Bytes) :=
  match next s with
  | .error e => .error e
  | .ok (.List, payload, rest) => .ok (payload, rest)
  | .ok (_, _, _) => .error ErrExpectedList

/-- Modelled from the spec: `Stream.ListEnd`: the payload must have been read to its end. -/
def decodeListEnd (left rest : Bytes) : Except GoError Bytes :=
  match left with
  | [] => .ok rest
  | _ :: _ => .error errTooManyElements

/-- Modelled from the spec: decoding `[Key, Value]` into a `StringAnnotation`. The first
component is the element as far as it was filled, also when decoding fails. -/
def decodeStringAnn (s : Bytes) : StringAnnotation × Except GoError Bytes :=
  match decodeListStart s with
  | .error e => (⟨[], []⟩, .error e)
  | .ok (p, rest) =>
    match field (decodeString p) with
    | .error e => (⟨[], []⟩, .error e)
    | .ok (k, p1) =>
      match field (decodeString p1) with
      | .error e => (⟨k, []⟩, .error e)
      | .ok (v, p2) => (⟨k, v⟩, decodeListEnd p2 rest)

/-- Modelled from the spec: decoding `[Key, Value]` into a `NumericAnnotation`. The first
component is the element as far as it was filled, also when decoding fails. -/
def decodeNumericAnn (s : Bytes) : NumericAnnotation × Except GoError Bytes :=
  match decodeListStart s with
  | .error e => (⟨[], 0⟩, .error e)
  | .ok (p, rest) =>
    match field (decodeString p) with
    | .error e => (⟨[], 0⟩, .error e)
    | .ok (k, p1) =>
      match field (decodeUint 8 p1) with
      | .error e => (⟨k, 0⟩, .error e)
      | .ok (v, p2) => (⟨k, v⟩, decodeListEnd p2 rest)

/-- Modelled from the spec: the element loop of a slice: elements are decoded from the
payload until it is used up. The elements read so far are kept when one fails, the failing
one included as far as it was filled. `fuel` bounds the number of elements. -/
def decodeElems {α : Type} (elem : Bytes → α × Except GoError Bytes) :
    Nat → Bytes → List α × Option GoError
  | _, [] => ([], none)
  | 0, _ :: _ => ([], some errLoop)
  | fuel + 1, b :: p =>
    match elem (b :: p) with
    | (a, .error e) => ([a], some e)
    | (a, .ok p1) => (a :: (decodeElems elem fuel p1).1, (decodeElems elem fuel p1).2)

/-- Modelled from the spec: decoding a slice: a list whose payload is the elements. Every
element takes at least one byte, so the payload's length bounds the number of elements. -/
def decodeSlice {α : Type} (elem : Bytes → α × Except GoError Bytes) (s : Bytes) :
    List α × Except GoError Bytes :=
  match decodeListStart s with
  | .error e => ([], .error e)
  | .ok (p, rest) =>
    match decodeElems elem p.length p with
    | (as, some e) => (as, .error e)
    | (as, none) => (as, .ok rest)

/-- Modelled from the spec: `s.Decode(&encodable)` on an `encodable` that holds the zero
value: the record is a list of exactly five items, decoded into the fields in declaration
order. The first component is `encodable` afterwards: when decoding fails, the fields read
before the failure keep their values and the later ones stay zero. -/
def Decode (s : Bytes) : EncodableEntityMetaData × Option GoError :=
  let e0 : EncodableEntityMetaData := ⟨0, [], [], zeroAddress, 0⟩
  match decodeListStart s with
  | .error e => (e0, some (if e = EOL then EOF else e))
  | .ok (p, _) =>
    match field (decodeUint 8 p) with
    | .error e => (e0, some e)
    | .ok (expires, p1) =>
      match decodeSlice decodeStringAnn p1 with
      | (sa, .error e) => (⟨expires, sa, [], zeroAddress, 0⟩, some (if e = EOL then errTooFewElements else e))
      | (sa, .ok p2) =>
        match decodeSlice decodeNumericAnn p2 with
        | (na, .error e) => (⟨expires, sa, na, zeroAddress, 0⟩, some (if e = EOL then errTooFewElements else e))
        | (na, .ok p3) =>
          match field (decodeByteArray 20 p3) with
          | .error e => (⟨expires, sa, na, zeroAddress, 0⟩, some e)
          | .ok (owner, p4) =>
            match field (decodeUint 32 p4) with
            | .error e => (⟨expires, sa, na, owner, 0⟩, some e)
            | .ok (blockInfo, p5) =>
              match decodeListEnd p5 [] with
              | .error e => (⟨expires, sa, na, owner, blockInfo⟩, some e)
              | .ok _ => (⟨expires, sa, na, owner, blockInfo⟩, none)

end rlp

/-! ## The codec (`active_payload.go`) -/

/-- Go `func (m *EntityMetaData) EncodeRLP(w io.Writer) error`, with an in-memory writer
(which never fails): the bytes written. -/
def EncodeRLP (m : EntityMetaData) : Bytes :=
  rlp.Encode (EncodeRLP.encodable m)

/-- Go `func (m *EntityMetaData) DecodeRLP(s *rlp.Stream) error`: `m` is the receiver
before the call, the result is the receiver after the call and the error returned. The
error of `s.Decode(&encodable)` is dropped (line 61) and the function ends in `return nil`. -/
def DecodeRLP (s : Bytes) (_m : EntityMetaData) : EntityMetaData × Option GoError :=
  let encodable := (rlp.Decode s).1
  (DecodeRLP.assemble encodable, none)

/-! ## The entity writer (`store_entity.go`) -/

/-- The four functions `Store` calls (`allentities.AddEntity`, `StoreEntityMetaData`,
`entityexpiration.AddToEntitiesToExpireAtBlock`, `StorePayload`), over the state `σ` behind
the `StateAccess` handle. Each takes the state and gives the state it leaves and its
error; `Store` does not look at what `StorePayload` gives back. -/
structure Collaborators (σ : Type) where
  AddEntity : σ → Bytes → σ × Option GoError
  StoreEntityMetaData : σ → Bytes → EntityMetaData → σ × Option GoError
  AddToEntitiesToExpireAtBlock : σ → Nat → Bytes → σ × Option GoError
  StorePayload : σ → Bytes → Bytes → σ × Option GoError

/-- Go `func Store(access StateAccess, key common.Hash, sender common.Address,
emd EntityMetaData, payload []byte) error`: the state left behind and the error returned.
The call of `log.Info` (line 35) writes to the process log only and is left out. -/
def Store {σ : Type} (c : Collaborators σ) (access : σ) (key : Bytes) (_sender : Bytes)
    (emd : EntityMetaData) (payload : Bytes) : σ × Option GoError :=
  match c.AddEntity access key with
  | (access, some err) => (access, some (Errorf_w "failed to add entity to all entities" err))
  | (access, none) =>
    match c.StoreEntityMetaData access key emd with
    | (access, some err) => (access, some (Errorf_w "failed to store entity meta data" err))
    | (access, none) =>
      match c.AddToEntitiesToExpireAtBlock access emd.ExpiresAtBlock key with
      | (access, some err) =>
        (access, some (Errorf_w "failed to add entity to entities to expire" err))
      | (access, none) =>
        ((c.StorePayload access key payload).1, none)

/-- One invocation of a collaborator, with its arguments. -/
inductive Call where
  | AddEntity (key : Bytes)
  | StoreEntityMetaData (key : Bytes) (emd : EntityMetaData)
  | AddToEntitiesToExpireAtBlock (block : Nat) (key : Bytes)
  | StorePayload (key : Bytes) (payload : Bytes)
deriving DecidableEq, Repr

/-- The spy of the spec's writer tests: the collaborators `c`, each of which also appends
its invocation to a log carried next to the state. -/
def spy {σ : Type} (c : Collaborators σ) : Collaborators (σ × List Call) where
  AddEntity := fun s key =>
    ((( c.AddEntity s.1 key).1, s.2 ++ [Call.AddEntity key]), (c.AddEntity s.1 key).2)
  StoreEntityMetaData := fun s key emd =>
    (((c.StoreEntityMetaData s.1 key emd).1, s.2 ++ [Call.StoreEntityMetaData key emd]),
      (c.StoreEntityMetaData s.1 key emd).2)
  AddToEntitiesToExpireAtBlock := fun s block key =>
    (((c.AddToEntitiesToExpireAtBlock s.1 block key).1,
        s.2 ++ [Call.AddToEntitiesToExpireAtBlock block key]),
      (c.AddToEntitiesToExpireAtBlock s.1 block key).2)
  StorePayload := fun s key payload =>
    (((c.StorePayload s.1 key payload).1, s.2 ++ [Call.StorePayload key payload]),
      (c.StorePayload s.1 key payload).2)

/-- Modelled from the spec: the persisted layout of section 6: the set of all entity keys,
the set of keys expiring at each height, the serialized metadata record under each key and
the payload blob under each key. -/
structure Layout where
  allEntities : List Bytes
  entitiesToExpire : Nat → List Bytes
  metaData : Bytes → Option Bytes
  payloads : Bytes → Option Bytes

/-- Modelled from the spec: `allentities.AddEntity`, absent from the sources: the key joins
the set of all entity keys. -/
def Layout.AddEntity (s : Layout) (key : Bytes) : Layout × Option GoError :=
  ({ s with allEntities := s.allEntities.insert key }, none)

/-- Modelled from the spec: `StoreEntityMetaData`, absent from the sources: the metadata is
encoded with the codec and the record is put under the key. -/
def Layout.StoreEntityMetaData (s : Layout) (key : Bytes) (emd : EntityMetaData) :
    Layout × Option GoError :=
  ({ s with metaData := fun k => if k = key then some (EncodeRLP emd) else s.metaData k }, none)

/-- Modelled from the spec: `entityexpiration.AddToEntitiesToExpireAtBlock`, absent from the
sources: the key joins the set of keys expiring at the height. -/
def Layout.AddToEntitiesToExpireAtBlock (s : Layout) (block : Nat) (key : Bytes) :
    Layout × Option GoError :=
  ({ s with entitiesToExpire := fun b =>
      if b = block then (s.entitiesToExpire b).insert key else s.entitiesToExpire b }, none)

/-- Modelled from the spec: `StorePayload`, absent from the sources: the payload bytes are
put under the key. -/
def Layout.StorePayload (s : Layout) (key : Bytes) (payload : Bytes) :
    Layout × Option GoError :=
  ({ s with payloads := fun k => if k = key then some payload else s.payloads k }, none)

/-- Modelled from the spec: the four collaborators over the persisted layout. -/
def layoutCollaborators : Collaborators Layout where
  AddEntity := Layout.AddEntity
  StoreEntityMetaData := Layout.StoreEntityMetaData
  AddToEntitiesToExpireAtBlock := Layout.AddToEntitiesToExpireAtBlock
  StorePayload := Layout.StorePayload

/-- The empty persisted layout. -/
def Layout.empty : Layout :=
  { allEntities := [], entitiesToExpire := fun _ => [], metaData := fun _ => none,
    payloads := fun _ => none }

/-- Modelled from the spec: an in-memory fake of the collaborators for the writer's failure
paths (section 9): the layout collaborators, except that step `k` (1 index registration,
2 metadata store, 3 expiration registration, 4 payload store) leaves the state as it is and
reports the error `e`. -/
def faulty (k : Nat) (e : GoError) : Collaborators Layout where
  AddEntity := fun s key => if k = 1 then (s, some e) else Layout.AddEntity s key
  StoreEntityMetaData := fun s key emd =>
    if k = 2 then (s, some e) else Layout.StoreEntityMetaData s key emd
  AddToEntitiesToExpireAtBlock := fun s block key =>
    if k = 3 then (s, some e) else Layout.AddToEntitiesToExpireAtBlock s block key
  StorePayload := fun s key payload =>
    if k = 4 then (s, some e) else Layout.StorePayload s key payload

/-! ## Sample values -/

/-- A 32-byte entity key. -/
def sampleKey : Bytes := List.replicate 31 0 ++ [7]

/-- A 20-byte address. -/
def sampleOwner : Bytes := List.replicate 19 0xAB ++ [0xCD]

/-- The metadata of the spec's scenario: expiry height 1000, created and last modified at
block 1, transaction and operation index 0. -/
def scenario : EntityMetaData :=
  { ExpiresAtBlock := 1000
    StringAnnotations := [⟨[107, 101, 121], [118, 97, 108]⟩]
    NumericAnnotations := [⟨[110], 300⟩]
    Owner := sampleOwner
    CreatedAtBlock := 1
    LastModifiedAtBlock := 1
    TransactionIndex := 0
    OperationIndex := 0 }

/-- A record at the boundary: every `uint64` field is `2^64 - 1`, two annotations of each
kind, one with an empty key and a one-byte value above `0x7f`. -/
def boundary : EntityMetaData :=
  { ExpiresAtBlock := 2 ^ 64 - 1
    StringAnnotations := [⟨[97], [98, 99]⟩, ⟨[], [200]⟩]
    NumericAnnotations := [⟨[110], 0⟩, ⟨[109], 2 ^ 64 - 1⟩]
    Owner := sampleOwner
    CreatedAtBlock := 2 ^ 64 - 1
    LastModifiedAtBlock := 2 ^ 64 - 1
    TransactionIndex := 2 ^ 64 - 1
    OperationIndex := 2 ^ 64 - 1 }

/-- The all-zero record, the receiver before a decode. -/
def zeroMetaData : EntityMetaData :=
  { ExpiresAtBlock := 0, StringAnnotations := [], NumericAnnotations := [],
    Owner := rlp.zeroAddress, CreatedAtBlock := 0, LastModifiedAtBlock := 0,
    TransactionIndex := 0, OperationIndex := 0 }

/-- An error of a collaborator. -/
def sampleError : GoError := .errorString "state access failed"

/-- A payload. -/
def samplePayload : Bytes := [1, 2, 3]

/-- A truncated stream: the encoding of `scenario` without its last byte. -/
def truncated : Bytes := (EncodeRLP scenario).dropLast

/-! ## Well-formed values -/

/-- The values of the Go type `EntityMetaData`: the five `uint64` fields are below `2^64`,
so is every numeric annotation value, the owner is 20 bytes, every string is made of
bytes, and the encoding is shorter than `2^64` bytes (the lengths Go can hold). -/
def EntityMetaData.WF (m : EntityMetaData) : Prop :=
  m.ExpiresAtBlock < U64 ∧ m.CreatedAtBlock < U64 ∧ m.LastModifiedAtBlock < U64
    ∧ m.TransactionIndex < U64 ∧ m.OperationIndex < U64
    ∧ m.Owner.length = 20 ∧ isBytes m.Owner
    ∧ (∀ a ∈ m.StringAnnotations, isBytes a.Key ∧ isBytes a.Value)
    ∧ (∀ a ∈ m.NumericAnnotations, isBytes a.Key ∧ a.Value < U64)
    ∧ (EncodeRLP m).length < U64

instance (m : EntityMetaData) : Decidable m.WF := by
  unfold EntityMetaData.WF; infer_instance

/-! ## The wire form as a tree of items -/

namespace rlp

/-- Modelled from the spec: an item of the canonical encoding, a byte string or a list of
items. -/
inductive Item where
  | str (b : Bytes)
  | list (items : List Item)
deriving Repr

mutual
/-- Modelled from the spec: the canonical encoding of an item: a byte string as a string,
a list as the size tag of its payload followed by the encodings of its items. -/
def Item.encode : Item → Bytes
  | .str b => writeString b
  | .list items => writeList (Item.encodeAll items)
/-- Modelled from the spec: the encodings of the items of a list, one after the other. -/
def Item.encodeAll : List Item → Bytes
  | [] => []
  | x :: xs => x.encode ++ Item.encodeAll xs
end

/-- Modelled from the spec: an unsigned integer is the byte string of its minimal
big-endian bytes. -/
def Item.uint (n : Nat) : Item := .str (toBE n)

end rlp

/-- The wire-form record in the words of the spec: one list of five items, in this order
the expiry height as an integer, the list of string annotations (each a pair `[key,
value]`), the list of numeric annotations (each a pair `[key, value]`), the owner as a
byte string, and the packed integer `operationIndex * 2^192 + transactionIndex * 2^128
+ lastModifiedAtBlock * 2^64 + createdAtBlock`. -/
def wireItem (m : EntityMetaData) : rlp.Item :=
  .list
    [ rlp.Item.uint m.ExpiresAtBlock,
      .list (m.StringAnnotations.map fun a => .list [.str a.Key, .str a.Value]),
      .list (m.NumericAnnotations.map fun a => .list [.str a.Key, rlp.Item.uint a.Value]),
      .str m.Owner,
      rlp.Item.uint (m.OperationIndex * 2 ^ 192 + m.TransactionIndex * 2 ^ 128
        + m.LastModifiedAtBlock * 2 ^ 64 + m.CreatedAtBlock) ]

/-! ## Annotation identifiers (`store_entity.go`, lines 14-18) -/

namespace regexp

/-- Go `regexp/syntax`: the operators the annotation pattern uses. A character class is
given by its membership test. -/
inductive Regexp where
  | BeginText
  | EndText
  | CharClass (p : Char → Bool)
  | Concat (a b : Regexp)
  | Star (a : Regexp)

/-- A position of the matcher in the text: whether it is the beginning of the text, and
the runes still ahead. -/
abbrev Position := Bool × List Char

/-- The positions reached from `st` by zero or more rounds of `step`; a round that does
not move forward adds no position. `fuel` bounds the number of rounds. -/
def starEnds (step : Position → List Position) : Nat → Position → List Position
  | 0, st => [st]
  | fuel + 1, st =>
    st :: ((step st).filter fun st1 => st1.2.length < st.2.length).flatMap (starEnds step fuel)

/-- Go `regexp`: the positions at which a match of the expression that starts at `st` can
end. `^` matches at the beginning of the text only and `$` at its end only (no multi-line
flag); a class takes one rune; a star takes any number of rounds. -/
def ends : Regexp → Position → List Position
  | .BeginText, st => if st.1 then [st] else []
  | .EndText, st => if st.2.isEmpty then [st] else []
  | .CharClass p, st =>
    match st.2 with
    | [] => []
    | c :: t => if p c then [(false, t)] else []
  | .Concat a b, st => (ends a st).flatMap fun st1 => ends b st1
  | .Star a, st => starEnds (fun st1 => ends a st1) st.2.length st

/-- The search of `MatchString`: a match may start at the current position or at any later
one. -/
def searchFrom (re : Regexp) : Bool → List Char → Bool
  | b, [] => !(ends re (b, [])).isEmpty
  | b, c :: t => !(ends re (b, c :: t)).isEmpty || searchFrom re false t

/-- Go `(*Regexp).MatchString`, on the runes of the string: whether the text contains a
match of the expression. -/
def MatchString (re : Regexp) (s : List Char) : Bool := searchFrom re true s

end regexp

/-- Go `const AnnotationIdentRegex`, the pattern `[\p{L}_][\p{L}\p{N}_]*` parsed: a
rune of category L or an underscore, then any number of runes of category L, of category N
or underscores. The tables of the categories (`unicode.L`, `unicode.N`) are the parameters
`L` and `N`. -/
def AnnotationIdentRegex (L N : Char → Bool) : regexp.Regexp :=
  .Concat (.CharClass fun c => L c || c == '_')
    (.Star (.CharClass fun c => L c || N c || c == '_'))

/-- Go `var AnnotationIdentRegexCompiled`: the pattern between `^` and `$`. -/
def AnnotationIdentRegexCompiled (L N : Char → Bool) : regexp.Regexp :=
  .Concat .BeginText (.Concat (AnnotationIdentRegex L N) .EndText)

/-- The ASCII part of category L, a sample table. -/
def asciiL (c : Char) : Bool := c.isAlpha

/-- The ASCII part of category N, a sample table. -/
def asciiN (c : Char) : Bool := c.isDigit

/-- A sender that is not the owner of `scenario`. -/
def sampleSender : Bytes := List.replicate 20 0x11

end Entity



namespace Entity

/-! ## The packed `blockInfo` -/

theorem blockInfo_eq (m : EntityMetaData)
    (ha : m.OperationIndex < U64) (hb : m.TransactionIndex < U64)
    (hc : m.LastModifiedAtBlock < U64) (hd : m.CreatedAtBlock < U64) :
    EncodeRLP.blockInfo m
      = m.OperationIndex * 2 ^ 192 + m.TransactionIndex * 2 ^ 128
        + m.LastModifiedAtBlock * 2 ^ 64 + m.CreatedAtBlock := by
  unfold U64 at ha hb hc hd
  simp only [EncodeRLP.blockInfo, uint256.NewInt, uint256.Lsh, uint256.AddUint64, U64, U256]
  omega

end Entity

namespace Entity.rlp

/-! ## Big-endian numbers -/

theorem toBEAux_eq_digits (fuel : Nat) : ∀ (n : Nat) (acc : Bytes), n ≤ fuel →
    toBEAux fuel n acc = (Nat.digits 256 n).reverse ++ acc := by
  induction fuel with
  | zero =>
    intro n acc h
    have h0 : n = 0 := by omega
    subst h0
    simp [toBEAux]
  | succ fuel ih =>
    intro n acc h
    by_cases h0 : n = 0
    · subst h0
      simp [toBEAux]
    · have hpos : 0 < n := Nat.pos_of_ne_zero h0
      have hdiv : n / 256 ≤ fuel := by omega
      rw [toBEAux, if_neg h0, ih _ _ hdiv, Nat.digits_def' (by norm_num) hpos]
      simp

theorem toBE_eq_digits (n : Nat) : toBE n = (Nat.digits 256 n).reverse := by
  unfold toBE
  rw [toBEAux_eq_digits n n [] (le_refl n)]
  simp

theorem beValue_append_singleton (bs : Bytes) (b : Nat) :
    beValue (bs ++ [b]) = beValue bs * 256 + b := by
  simp [beValue, List.foldl_append]

theorem beValue_reverse (l : List Nat) : beValue l.reverse = Nat.ofDigits 256 l := by
  induction l with
  | nil => simp [beValue]
  | cons x l ih =>
    rw [List.reverse_cons, beValue_append_singleton, ih, Nat.ofDigits_cons]
    omega

theorem beValue_toBE (n : Nat) : beValue (toBE n) = n := by
  rw [toBE_eq_digits, beValue_reverse, Nat.ofDigits_digits]

theorem toBE_ne_nil {n : Nat} (h : n ≠ 0) : toBE n ≠ [] := by
  rw [toBE_eq_digits]
  simpa using Nat.digits_ne_nil_iff_ne_zero.mpr h

theorem toBE_head {n : Nat} (h : n ≠ 0) : (toBE n).head? ≠ some 0 := by
  rw [toBE_eq_digits, List.head?_reverse,
    List.getLast?_eq_getLast _ (Nat.digits_ne_nil_iff_ne_zero.mpr h)]
  intro hc
  exact Nat.getLast_digit_ne_zero 256 h (Option.some.inj hc)

theorem toBE_length_pos {n : Nat} (h : n ≠ 0) : 0 < (toBE n).length :=
  List.length_pos.mpr (toBE_ne_nil h)

theorem toBE_length_le {n k : Nat} (h : n < 256 ^ k) : (toBE n).length ≤ k := by
  by_cases h0 : n = 0
  · subst h0
    simp [toBE, toBEAux]
  · rw [toBE_eq_digits, List.length_reverse]
    have h1 := Nat.base_pow_length_digits_le 256 n (by norm_num) h0
    have h2 : 256 ^ (Nat.digits 256 n).length < 256 ^ (k + 1) := by
      calc 256 ^ (Nat.digits 256 n).length ≤ 256 * n := h1
        _ < 256 * 256 ^ k := by omega
        _ = 256 ^ (k + 1) := by ring
    have h3 := (Nat.pow_lt_pow_iff_right (by norm_num : 1 < 256)).mp h2
    omega

end Entity.rlp

namespace Entity.rlp

/-! ## Size tags -/

theorem readFull_append (k : Kind) (c rest : Bytes) :
    readFull k c.length (c ++ rest) = .ok (k, c, rest) := by
  simp [readFull]

theorem readUint_toBE {n : Nat} (h : n ≠ 0) (t : Bytes) :
    readUint (toBE n).length (toBE n ++ t) = .ok (n, t) := by
  have hh := toBE_head h
  have hne := toBE_ne_nil h
  have hhead : (toBE n ++ t).head? = (toBE n).head? := by
    cases hb : toBE n with
    | nil => exact absurd hb hne
    | cons x xs => simp
  unfold readUint
  rw [if_neg (by simp), if_neg (by rw [hhead]; exact fun hc => hh hc.2)]
  simp [beValue_toBE]

theorem toBE_length_le_eight {n : Nat} (h : n < U64) : (toBE n).length ≤ 8 :=
  toBE_length_le (by unfold U64 at h; norm_num; omega)

theorem next_string (c rest : Bytes) (h : c.length < U64) :
    next (puthead 0x80 0xB7 c.length ++ c ++ rest) = .ok (.String, c, rest) := by
  unfold puthead
  by_cases hs : c.length < 56
  · rw [if_pos hs]
    simp only [List.singleton_append, List.cons_append, List.nil_append, next]
    rw [if_neg (by omega), if_pos (by omega)]
    have : 0x80 + c.length - 0x80 = c.length := by omega
    rw [this, readFull_append]
  · rw [if_neg hs]
    have h0 : c.length ≠ 0 := by omega
    have h8 := toBE_length_le_eight h
    have h1 := toBE_length_pos h0
    simp only [List.cons_append, next]
    rw [if_neg (by omega), if_neg (by omega), if_pos (by omega)]
    have : 0xB7 + (toBE c.length).length - 0xB7 = (toBE c.length).length := by omega
    rw [this, List.append_assoc, readUint_toBE h0]
    simp only
    rw [if_neg hs, readFull_append]

theorem next_list (p rest : Bytes) :
    next (writeList p ++ rest) = .ok (.List, p, rest) := by
  unfold writeList puthead
  by_cases hs : p.length < 56
  · rw [if_pos hs]
    simp only [List.singleton_append, List.cons_append, List.nil_append, next]
    rw [if_neg (by omega), if_neg (by omega), if_neg (by omega), if_pos (by omega)]
    have : 0xC0 + p.length - 0xC0 = p.length := by omega
    rw [this, readFull_append]
  · rw [if_neg hs]
    have h0 : p.length ≠ 0 := by omega
    have h1 := toBE_length_pos h0
    simp only [List.cons_append, next]
    rw [if_neg (by omega), if_neg (by omega), if_neg (by omega), if_neg (by omega)]
    have : 0xF7 + (toBE p.length).length - 0xF7 = (toBE p.length).length := by omega
    rw [this, List.append_assoc, readUint_toBE h0]
    simp only
    rw [if_neg hs, readFull_append]

end Entity.rlp

namespace Entity.rlp

/-! ## Fields -/

theorem decodeListStart_writeList (p rest : Bytes) :
    decodeListStart (writeList p ++ rest) = .ok (p, rest) := by
  simp [decodeListStart, next_list]

theorem decodeString_writeString (b rest : Bytes) (h : b.length < U64) :
    decodeString (writeString b ++ rest) = .ok (b, rest) := by
  unfold decodeString
  match b, h with
  | [], h =>
    have := next_string [] rest h
    simp only [List.append_nil, List.length_nil] at this
    simp only [writeString, List.length_nil, List.append_nil]
    rw [this]
    simp
  | [x], h =>
    by_cases hx : x < 0x80
    · simp [writeString, hx, next]
    · have := next_string [x] rest h
      simp only [List.length_singleton] at this
      simp only [writeString, if_neg hx]
      rw [this]
      simp [beValue]
      omega
  | x :: y :: l, h =>
    have := next_string (x :: y :: l) rest h
    simp only [writeString]
    rw [this]
    simp

theorem decodeUint_writeUint (k n : Nat) (rest : Bytes) (hk : k ≤ 55) (h : n < 256 ^ k) :
    decodeUint k (writeUint n ++ rest) = .ok (n, rest) := by
  unfold decodeUint writeUint
  by_cases h0 : n = 0
  · subst h0
    simp [next, readFull, beValue]
  · rw [if_neg h0]
    by_cases h1 : n < 128
    · rw [if_pos h1]
      simp only [List.singleton_append, next]
      rw [if_pos (by omega)]
      simp [beValue, h0]
    · rw [if_neg h1]
      have hl := toBE_length_le h
      have hh := toBE_head h0
      simp only [List.cons_append, next]
      rw [if_neg (by omega), if_pos (by omega)]
      have : 0x80 + (toBE n).length - 0x80 = (toBE n).length := by omega
      rw [this, readFull_append]
      simp only
      rw [if_neg (by omega), if_neg hh, if_neg (by rw [beValue_toBE]; omega), beValue_toBE]

theorem decodeByteArray_writeByteArray (b rest : Bytes) (h : b.length < U64) :
    decodeByteArray b.length (writeByteArray b ++ rest) = .ok (b, rest) := by
  unfold decodeByteArray writeByteArray
  rw [next_string b rest h]
  simp

theorem field_ok {α : Type} (a : α) : field (.ok a : Except GoError α) = .ok a := rfl

end Entity.rlp

namespace Entity.rlp

/-! ## Lengths -/

theorem puthead_length_pos (a b n : Nat) : 0 < (puthead a b n).length := by
  unfold puthead
  split <;> simp

theorem length_lt_writeList (p : Bytes) : p.length < (writeList p).length := by
  have := puthead_length_pos 0xC0 0xF7 p.length
  simp only [writeList, List.length_append]
  omega

theorem length_le_writeString (b : Bytes) : b.length ≤ (writeString b).length := by
  unfold writeString
  split
  · split <;> simp
  · simp

theorem length_le_writeByteArray (b : Bytes) : b.length ≤ (writeByteArray b).length := by
  simp [writeByteArray]

theorem writeList_ne_nil (p : Bytes) : writeList p ≠ [] := by
  intro h
  have := length_lt_writeList p
  rw [h] at this
  simp at this

theorem length_le_writeElems {α : Type} (f : α → Bytes) (xs : List α) :
    ∀ a ∈ xs, (f a).length ≤ (writeElems f xs).length := by
  induction xs with
  | nil => intro a ha; simp at ha
  | cons x xs ih =>
    intro a ha
    simp only [writeElems, List.length_append]
    rcases List.mem_cons.mp ha with h | h
    · subst h; omega
    · have := ih a h; omega

/-! ## Elements and slices -/

theorem decodeStringAnnotation_write (a : StringAnnotation) (rest : Bytes)
    (h : (writeStringAnn a).length < U64) :
    decodeStringAnn (writeStringAnn a ++ rest) = (a, .ok rest) := by
  have hp := length_lt_writeList (writeString a.Key ++ writeString a.Value)
  have hk := length_le_writeString a.Key
  have hv := length_le_writeString a.Value
  simp only [writeStringAnn, List.length_append] at h hp
  have h1 := decodeString_writeString a.Key (writeString a.Value) (by omega)
  have h2 := decodeString_writeString a.Value [] (by omega)
  simp only [List.append_nil] at h2
  simp only [decodeStringAnn, writeStringAnn, decodeListStart_writeList, h1, h2,
    field_ok, decodeListEnd]

theorem decodeNumericAnnotation_write (a : NumericAnnotation) (rest : Bytes)
    (hv : a.Value < U64) (h : (writeNumericAnn a).length < U64) :
    decodeNumericAnn (writeNumericAnn a ++ rest) = (a, .ok rest) := by
  have hp := length_lt_writeList (writeString a.Key ++ writeUint a.Value)
  have hk := length_le_writeString a.Key
  simp only [writeNumericAnn, List.length_append] at h hp
  have h1 := decodeString_writeString a.Key (writeUint a.Value) (by omega)
  have h2 := decodeUint_writeUint 8 a.Value [] (by norm_num)
    (by unfold U64 at hv; norm_num; omega)
  simp only [List.append_nil] at h2
  simp only [decodeNumericAnn, writeNumericAnn, decodeListStart_writeList, h1, h2,
    field_ok, decodeListEnd]

theorem decodeElems_writeElems {α : Type} (elem : Bytes → α × Except GoError Bytes)
    (f : α → Bytes) (xs : List α)
    (h : ∀ a ∈ xs, ∀ rest, elem (f a ++ rest) = (a, .ok rest))
    (hne : ∀ a ∈ xs, f a ≠ []) :
    ∀ fuel, (writeElems f xs).length ≤ fuel →
      decodeElems elem fuel (writeElems f xs) = (xs, none) := by
  induction xs with
  | nil => intro fuel _; simp [writeElems, decodeElems]
  | cons x xs ih =>
    intro fuel hf
    have hx := h x (List.mem_cons_self x xs) (writeElems f xs)
    have ih1 := ih (fun a ha => h a (List.mem_cons_of_mem x ha))
      (fun a ha => hne a (List.mem_cons_of_mem x ha))
    simp only [writeElems] at hf ⊢
    cases hfx : f x with
    | nil => exact absurd hfx (hne x (List.mem_cons_self x xs))
    | cons b t =>
      rw [hfx] at hx hf
      simp only [List.cons_append, List.length_cons, List.length_append] at hx hf ⊢
      cases fuel with
      | zero => omega
      | succ fuel =>
        have ih2 := ih1 fuel (by omega)
        simp only [decodeElems, hx, ih2]

theorem decodeSlice_write {α : Type} (elem : Bytes → α × Except GoError Bytes)
    (f : α → Bytes) (xs : List α) (rest : Bytes)
    (h : ∀ a ∈ xs, ∀ rest, elem (f a ++ rest) = (a, .ok rest))
    (hne : ∀ a ∈ xs, f a ≠ []) :
    decodeSlice elem (writeList (writeElems f xs) ++ rest) = (xs, .ok rest) := by
  simp only [decodeSlice, decodeListStart_writeList,
    decodeElems_writeElems elem f xs h hne _ (le_refl _)]

end Entity.rlp

namespace Entity.rlp

/-! ## The record -/

theorem Decode_Encode (e : EncodableEntityMetaData)
    (hexp : e.ExpiresAtBlock < U64)
    (hna : ∀ a ∈ e.NumericAnnotations, a.Value < U64)
    (hown : e.Owner.length = 20)
    (hbi : e.BlockInfo < U256)
    (hlen : (Encode e).length < U64) :
    Decode (Encode e) = (e, none) := by
  have hp := length_lt_writeList (encodePayload e)
  have hsa := length_lt_writeList (writeElems writeStringAnn e.StringAnnotations)
  have hnu := length_lt_writeList (writeElems writeNumericAnn e.NumericAnnotations)
  have hpl : (encodePayload e).length < U64 := by unfold Encode at hlen; omega
  simp only [encodePayload, List.length_append] at hpl
  have h0 := decodeListStart_writeList (encodePayload e) []
  simp only [List.append_nil] at h0
  have h1 : ∀ rest, decodeUint 8 (writeUint e.ExpiresAtBlock ++ rest)
      = .ok (e.ExpiresAtBlock, rest) := fun rest =>
    decodeUint_writeUint 8 _ rest (by norm_num) (by unfold U64 at hexp; norm_num; omega)
  have h2 : ∀ rest, decodeSlice decodeStringAnn
      (writeList (writeElems writeStringAnn e.StringAnnotations) ++ rest)
      = (e.StringAnnotations, .ok rest) := fun rest =>
    decodeSlice_write _ _ _ rest
      (fun a ha r => decodeStringAnnotation_write a r (by
        have := length_le_writeElems writeStringAnn e.StringAnnotations a ha
        omega))
      (fun a _ => writeList_ne_nil _)
  have h3 : ∀ rest, decodeSlice decodeNumericAnn
      (writeList (writeElems writeNumericAnn e.NumericAnnotations) ++ rest)
      = (e.NumericAnnotations, .ok rest) := fun rest =>
    decodeSlice_write _ _ _ rest
      (fun a ha r => decodeNumericAnnotation_write a r (hna a ha) (by
        have := length_le_writeElems writeNumericAnn e.NumericAnnotations a ha
        omega))
      (fun a _ => writeList_ne_nil _)
  have h4 : ∀ rest, decodeByteArray 20 (writeByteArray e.Owner ++ rest)
      = .ok (e.Owner, rest) := fun rest => by
    have := decodeByteArray_writeByteArray e.Owner rest (by rw [hown]; unfold U64; norm_num)
    rwa [hown] at this
  have h5 := decodeUint_writeUint 32 e.BlockInfo [] (by norm_num)
    (by unfold U256 at hbi; norm_num; omega)
  simp only [List.append_nil] at h5
  simp only [Decode, Encode, h0]
  simp only [encodePayload, List.append_assoc, h1, h2, h3, h4, h5, field_ok, decodeListEnd]

end Entity.rlp

namespace Entity

/-! ## The codec -/

theorem assemble_encodable (m : EntityMetaData)
    (ha : m.OperationIndex < U64) (hb : m.TransactionIndex < U64)
    (hc : m.LastModifiedAtBlock < U64) (hd : m.CreatedAtBlock < U64) :
    DecodeRLP.assemble (EncodeRLP.encodable m) = m := by
  have hbi := blockInfo_eq m ha hb hc hd
  unfold U64 at ha hb hc hd
  cases m
  simp only [DecodeRLP.assemble, EncodeRLP.encodable, hbi, uint256.Uint64, uint256.Rsh, U64,
    EntityMetaData.mk.injEq, true_and] at *
  omega

theorem blockInfo_lt (m : EntityMetaData)
    (ha : m.OperationIndex < U64) (hb : m.TransactionIndex < U64)
    (hc : m.LastModifiedAtBlock < U64) (hd : m.CreatedAtBlock < U64) :
    EncodeRLP.blockInfo m < U256 := by
  rw [blockInfo_eq m ha hb hc hd]
  unfold U64 at ha hb hc hd
  unfold U256
  omega

theorem DecodeRLP_EncodeRLP (m m0 : EntityMetaData) (h : m.WF) :
    DecodeRLP (EncodeRLP m) m0 = (m, none) := by
  obtain ⟨hexp, hd, hc, hb, ha, hown, _, _, hna, hlen⟩ := h
  have h1 := rlp.Decode_Encode (EncodeRLP.encodable m) hexp (fun a h => (hna a h).2) hown
    (blockInfo_lt m ha hb hc hd) hlen
  simp only [DecodeRLP, EncodeRLP, h1, assemble_encodable m ha hb hc hd]

end Entity

namespace Entity

/-! ## Claims about the codec -/

/-- Claim C1: round trip. For every well-formed `EntityMetaData` value `m` and whatever the
receiver held before, `DecodeRLP` applied to the bytes written by `EncodeRLP m` returns no
error and leaves the receiver equal to `m` in every field; in particular both annotation
lists come back unchanged (same length, order, keys and values). -/
theorem C1_roundtrip (m m0 : EntityMetaData) (h : m.WF) :
    DecodeRLP (EncodeRLP m) m0 = (m, none)
      ∧ (DecodeRLP (EncodeRLP m) m0).1.StringAnnotations = m.StringAnnotations
      ∧ (DecodeRLP (EncodeRLP m) m0).1.NumericAnnotations = m.NumericAnnotations := by
  have h1 := DecodeRLP_EncodeRLP m m0 h
  rw [h1]
  exact ⟨rfl, rfl, rfl⟩

/-- Witness of C1 at the boundary record (all counters `2^64 - 1`). -/
theorem C1_roundtrip_witness :
    boundary.WF ∧ (DecodeRLP (EncodeRLP boundary) zeroMetaData = (boundary, none)
      ∧ (DecodeRLP (EncodeRLP boundary) zeroMetaData).1.StringAnnotations
          = boundary.StringAnnotations
      ∧ (DecodeRLP (EncodeRLP boundary) zeroMetaData).1.NumericAnnotations
          = boundary.NumericAnnotations) :=
  ⟨by decide, C1_roundtrip boundary zeroMetaData (by decide)⟩

/-- Claim C2: bit layout. For `uint64` counters the `blockInfo` that `EncodeRLP` builds is
exactly `operationIndex * 2^192 + transactionIndex * 2^128 + lastModifiedAtBlock * 2^64
+ createdAtBlock`, a number below `2^256`: no shift or addition wraps. -/
theorem C2_bit_layout (m : EntityMetaData)
    (ha : m.OperationIndex < U64) (hb : m.TransactionIndex < U64)
    (hc : m.LastModifiedAtBlock < U64) (hd : m.CreatedAtBlock < U64) :
    (EncodeRLP.encodable m).BlockInfo
        = m.OperationIndex * 2 ^ 192 + m.TransactionIndex * 2 ^ 128
          + m.LastModifiedAtBlock * 2 ^ 64 + m.CreatedAtBlock
      ∧ m.OperationIndex * 2 ^ 192 + m.TransactionIndex * 2 ^ 128
          + m.LastModifiedAtBlock * 2 ^ 64 + m.CreatedAtBlock < 2 ^ 256 := by
  refine ⟨blockInfo_eq m ha hb hc hd, ?_⟩
  unfold U64 at ha hb hc hd
  omega

/-- Witness of C2 with all four counters at `2^64 - 1`. -/
theorem C2_bit_layout_witness :
    (boundary.OperationIndex < U64 ∧ boundary.TransactionIndex < U64
      ∧ boundary.LastModifiedAtBlock < U64 ∧ boundary.CreatedAtBlock < U64)
    ∧ ((EncodeRLP.encodable boundary).BlockInfo
        = boundary.OperationIndex * 2 ^ 192 + boundary.TransactionIndex * 2 ^ 128
          + boundary.LastModifiedAtBlock * 2 ^ 64 + boundary.CreatedAtBlock
      ∧ boundary.OperationIndex * 2 ^ 192 + boundary.TransactionIndex * 2 ^ 128
          + boundary.LastModifiedAtBlock * 2 ^ 64 + boundary.CreatedAtBlock < 2 ^ 256) :=
  ⟨by decide, C2_bit_layout boundary (by decide) (by decide) (by decide) (by decide)⟩

/-- Claim C3, evaluated on the code: `DecodeRLP` returns `nil` on every stream. On the
truncated encoding the record decoder reports an error, on the empty stream too, and
`DecodeRLP` returns `nil` all the same, leaving the zero record in the receiver. -/
theorem C3_decode_error_dropped :
    (∀ (s : Bytes) (m : EntityMetaData), (DecodeRLP s m).2 = none)
      ∧ (rlp.Decode truncated).2 = some rlp.ErrValueTooLarge
      ∧ DecodeRLP truncated scenario = (zeroMetaData, none)
      ∧ (rlp.Decode []).2 = some rlp.EOF
      ∧ DecodeRLP [] scenario = (zeroMetaData, none) :=
  ⟨fun _ _ => rfl, by decide, by decide, by decide, by decide⟩

/-- Claim C4: unpacking assignment. On every stream, the four counters `DecodeRLP` assigns
are the 64-bit lanes of the decoded `blockInfo`, read from the least significant one:
created, lastModified, transactionIndex, operationIndex are `(v / 2^(64*i)) mod 2^64` for
`i = 0, 1, 2, 3`; hence for `v = a*2^192 + b*2^128 + c*2^64 + d` with `uint64` lanes they
are `d`, `c`, `b` and `a`. -/
theorem C4_unpack (s : Bytes) (m0 : EntityMetaData) :
    ((DecodeRLP s m0).1.CreatedAtBlock = (rlp.Decode s).1.BlockInfo / 2 ^ (64 * 0) % 2 ^ 64
      ∧ (DecodeRLP s m0).1.LastModifiedAtBlock
          = (rlp.Decode s).1.BlockInfo / 2 ^ (64 * 1) % 2 ^ 64
      ∧ (DecodeRLP s m0).1.TransactionIndex
          = (rlp.Decode s).1.BlockInfo / 2 ^ (64 * 2) % 2 ^ 64
      ∧ (DecodeRLP s m0).1.OperationIndex
          = (rlp.Decode s).1.BlockInfo / 2 ^ (64 * 3) % 2 ^ 64)
    ∧ ∀ a b c d : Nat, a < U64 → b < U64 → c < U64 → d < U64 →
        (rlp.Decode s).1.BlockInfo = a * 2 ^ 192 + b * 2 ^ 128 + c * 2 ^ 64 + d →
        (DecodeRLP s m0).1.CreatedAtBlock = d ∧ (DecodeRLP s m0).1.LastModifiedAtBlock = c
          ∧ (DecodeRLP s m0).1.TransactionIndex = b ∧ (DecodeRLP s m0).1.OperationIndex = a := by
  refine ⟨?_, ?_⟩
  · simp only [DecodeRLP, DecodeRLP.assemble, uint256.Uint64, uint256.Rsh, U64]
    refine ⟨by norm_num, by norm_num, ?_, ?_⟩
    · rw [Nat.div_div_eq_div_mul]; norm_num
    · rw [Nat.div_div_eq_div_mul, Nat.div_div_eq_div_mul]; norm_num
  · intro a b c d ha hb hc hd hv
    unfold U64 at ha hb hc hd
    simp only [DecodeRLP, DecodeRLP.assemble, uint256.Uint64, uint256.Rsh, U64, hv]
    omega

/-- Witness of C4: the stream is the encoding of `boundary` with the lanes
`a = b = c = d = 2^64 - 1`. -/
theorem C4_unpack_witness :
    ((2 ^ 64 - 1 < U64) ∧ (rlp.Decode (EncodeRLP boundary)).1.BlockInfo
        = (2 ^ 64 - 1) * 2 ^ 192 + (2 ^ 64 - 1) * 2 ^ 128 + (2 ^ 64 - 1) * 2 ^ 64 + (2 ^ 64 - 1))
    ∧ ((DecodeRLP (EncodeRLP boundary) zeroMetaData).1.CreatedAtBlock = 2 ^ 64 - 1
      ∧ (DecodeRLP (EncodeRLP boundary) zeroMetaData).1.LastModifiedAtBlock = 2 ^ 64 - 1
      ∧ (DecodeRLP (EncodeRLP boundary) zeroMetaData).1.TransactionIndex = 2 ^ 64 - 1
      ∧ (DecodeRLP (EncodeRLP boundary) zeroMetaData).1.OperationIndex = 2 ^ 64 - 1) :=
  ⟨⟨by decide, by decide⟩,
    (C4_unpack (EncodeRLP boundary) zeroMetaData).2 (2 ^ 64 - 1) (2 ^ 64 - 1) (2 ^ 64 - 1)
      (2 ^ 64 - 1) (by decide) (by decide) (by decide) (by decide) (by decide)⟩

end Entity

namespace Entity

/-! ## The writer, step by step -/

section writer

variable {σ : Type} (c : Collaborators σ) (s s1 s2 s3 : σ) (e : GoError)
  (key sender payload : Bytes) (emd : EntityMetaData) (log : List Call)

theorem Store_fail1 (h1 : c.AddEntity s key = (s1, some e)) :
    Store c s key sender emd payload
      = (s1, some (Errorf_w "failed to add entity to all entities" e)) := by
  simp only [Store, h1]

theorem Store_fail2 (h1 : c.AddEntity s key = (s1, none))
    (h2 : c.StoreEntityMetaData s1 key emd = (s2, some e)) :
    Store c s key sender emd payload
      = (s2, some (Errorf_w "failed to store entity meta data" e)) := by
  simp only [Store, h1, h2]

theorem Store_fail3 (h1 : c.AddEntity s key = (s1, none))
    (h2 : c.StoreEntityMetaData s1 key emd = (s2, none))
    (h3 : c.AddToEntitiesToExpireAtBlock s2 emd.ExpiresAtBlock key = (s3, some e)) :
    Store c s key sender emd payload
      = (s3, some (Errorf_w "failed to add entity to entities to expire" e)) := by
  simp only [Store, h1, h2, h3]

theorem Store_ok (h1 : c.AddEntity s key = (s1, none))
    (h2 : c.StoreEntityMetaData s1 key emd = (s2, none))
    (h3 : c.AddToEntitiesToExpireAtBlock s2 emd.ExpiresAtBlock key = (s3, none)) :
    Store c s key sender emd payload = ((c.StorePayload s3 key payload).1, none) := by
  simp only [Store, h1, h2, h3]

theorem spy_AddEntity (r : Option GoError) (h1 : c.AddEntity s key = (s1, r)) :
    (spy c).AddEntity (s, log) key = ((s1, log ++ [Call.AddEntity key]), r) := by
  simp only [spy, h1]

theorem spy_StoreEntityMetaData (r : Option GoError)
    (h2 : c.StoreEntityMetaData s1 key emd = (s2, r)) :
    (spy c).StoreEntityMetaData (s1, log) key emd
      = ((s2, log ++ [Call.StoreEntityMetaData key emd]), r) := by
  simp only [spy, h2]

theorem spy_AddToEntitiesToExpireAtBlock (r : Option GoError) (block : Nat)
    (h3 : c.AddToEntitiesToExpireAtBlock s2 block key = (s3, r)) :
    (spy c).AddToEntitiesToExpireAtBlock (s2, log) block key
      = ((s3, log ++ [Call.AddToEntitiesToExpireAtBlock block key]), r) := by
  simp only [spy, h3]

theorem spy_StorePayload :
    ((spy c).StorePayload (s3, log) key payload).1
      = ((c.StorePayload s3 key payload).1, log ++ [Call.StorePayload key payload]) := by
  simp only [spy]

theorem Store_spy_fail1 (h1 : c.AddEntity s key = (s1, some e)) :
    Store (spy c) (s, log) key sender emd payload
      = ((s1, log ++ [Call.AddEntity key]),
          some (Errorf_w "failed to add entity to all entities" e)) :=
  Store_fail1 (spy c) _ _ e key sender payload emd (spy_AddEntity c s s1 key log _ h1)

theorem Store_spy_fail2 (h1 : c.AddEntity s key = (s1, none))
    (h2 : c.StoreEntityMetaData s1 key emd = (s2, some e)) :
    Store (spy c) (s, log) key sender emd payload
      = ((s2, log ++ [Call.AddEntity key, Call.StoreEntityMetaData key emd]),
          some (Errorf_w "failed to store entity meta data" e)) := by
  have := Store_fail2 (spy c) _ _ _ e key sender payload emd
    (spy_AddEntity c s s1 key log _ h1) (spy_StoreEntityMetaData c s1 s2 key emd _ _ h2)
  simpa using this

theorem Store_spy_fail3 (h1 : c.AddEntity s key = (s1, none))
    (h2 : c.StoreEntityMetaData s1 key emd = (s2, none))
    (h3 : c.AddToEntitiesToExpireAtBlock s2 emd.ExpiresAtBlock key = (s3, some e)) :
    Store (spy c) (s, log) key sender emd payload
      = ((s3, log ++ [Call.AddEntity key, Call.StoreEntityMetaData key emd,
            Call.AddToEntitiesToExpireAtBlock emd.ExpiresAtBlock key]),
          some (Errorf_w "failed to add entity to entities to expire" e)) := by
  have := Store_fail3 (spy c) _ _ _ _ e key sender payload emd
    (spy_AddEntity c s s1 key log _ h1) (spy_StoreEntityMetaData c s1 s2 key emd _ _ h2)
    (spy_AddToEntitiesToExpireAtBlock c s2 s3 key _ _ _ h3)
  simpa using this

theorem Store_spy_ok (h1 : c.AddEntity s key = (s1, none))
    (h2 : c.StoreEntityMetaData s1 key emd = (s2, none))
    (h3 : c.AddToEntitiesToExpireAtBlock s2 emd.ExpiresAtBlock key = (s3, none)) :
    Store (spy c) (s, log) key sender emd payload
      = (((c.StorePayload s3 key payload).1,
            log ++ [Call.AddEntity key, Call.StoreEntityMetaData key emd,
              Call.AddToEntitiesToExpireAtBlock emd.ExpiresAtBlock key,
              Call.StorePayload key payload]), none) := by
  have := Store_ok (spy c) _ _ _ _ key sender payload emd
    (spy_AddEntity c s s1 key log _ h1) (spy_StoreEntityMetaData c s1 s2 key emd _ _ h2)
    (spy_AddToEntitiesToExpireAtBlock c s2 s3 key _ _ _ h3)
  rw [this, spy_StorePayload]
  simp

end writer

end Entity

namespace Entity

/-! ## Claims about the writer -/

/-- Claim C5: writer ordering. When index registration, metadata store and expiration
registration succeed (leaving the states `s1`, `s2`, `s3`), the invocations `Store` makes
on a spy are exactly `AddEntity key`, `StoreEntityMetaData key emd`,
`AddToEntitiesToExpireAtBlock emd.ExpiresAtBlock key`, `StorePayload key payload`, in this
order and once each, every step running on the state its predecessor left; the final
state is the one `StorePayload` leaves from `s3`, and `Store` returns `nil`. -/
theorem C5_writer_ordering {σ : Type} (c : Collaborators σ) (s s1 s2 s3 : σ)
    (key sender payload : Bytes) (emd : EntityMetaData)
    (h1 : c.AddEntity s key = (s1, none))
    (h2 : c.StoreEntityMetaData s1 key emd = (s2, none))
    (h3 : c.AddToEntitiesToExpireAtBlock s2 emd.ExpiresAtBlock key = (s3, none)) :
    Store (spy c) (s, []) key sender emd payload
        = (((c.StorePayload s3 key payload).1,
            [Call.AddEntity key, Call.StoreEntityMetaData key emd,
              Call.AddToEntitiesToExpireAtBlock emd.ExpiresAtBlock key,
              Call.StorePayload key payload]), none)
      ∧ Store c s key sender emd payload = ((c.StorePayload s3 key payload).1, none) :=
  ⟨by simpa using Store_spy_ok c s s1 s2 s3 key sender payload emd [] h1 h2 h3,
    Store_ok c s s1 s2 s3 key sender payload emd h1 h2 h3⟩

/-- Witness of C5 on the layout collaborators, from the empty layout. -/
theorem C5_writer_ordering_witness :
    (Store (spy layoutCollaborators) (Layout.empty, []) sampleKey sampleOwner scenario
        samplePayload).1.2
      = [Call.AddEntity sampleKey, Call.StoreEntityMetaData sampleKey scenario,
          Call.AddToEntitiesToExpireAtBlock 1000 sampleKey,
          Call.StorePayload sampleKey samplePayload] :=
  congrArg (fun r => r.1.2)
    (C5_writer_ordering layoutCollaborators Layout.empty
      (Layout.AddEntity Layout.empty sampleKey).1
      (Layout.StoreEntityMetaData (Layout.AddEntity Layout.empty sampleKey).1
        sampleKey scenario).1
      (Layout.AddToEntitiesToExpireAtBlock
        (Layout.StoreEntityMetaData (Layout.AddEntity Layout.empty sampleKey).1
          sampleKey scenario).1 1000 sampleKey).1
      sampleKey sampleOwner samplePayload scenario rfl rfl rfl).1

/-- Claim C6: abort at first failure. If index registration fails, the only invocation is
`AddEntity`; if it succeeds and the metadata store fails, the invocations are `AddEntity`,
`StoreEntityMetaData` and nothing more; if both succeed and expiration registration fails,
they are `AddEntity`, `StoreEntityMetaData`, `AddToEntitiesToExpireAtBlock` and nothing
more. In each case `Store` returns an error, no step runs twice, and whenever `Store`
returns an error `StorePayload` was not invoked. -/
theorem C6_abort_at_first_failure {σ : Type} (c : Collaborators σ) (s : σ)
    (key sender payload : Bytes) (emd : EntityMetaData) :
    (∀ s1 e, c.AddEntity s key = (s1, some e) →
        (Store (spy c) (s, []) key sender emd payload).1 = (s1, [Call.AddEntity key])
          ∧ (Store (spy c) (s, []) key sender emd payload).2 ≠ none)
      ∧ (∀ s1 s2 e, c.AddEntity s key = (s1, none) →
          c.StoreEntityMetaData s1 key emd = (s2, some e) →
          (Store (spy c) (s, []) key sender emd payload).1
              = (s2, [Call.AddEntity key, Call.StoreEntityMetaData key emd])
            ∧ (Store (spy c) (s, []) key sender emd payload).2 ≠ none)
      ∧ (∀ s1 s2 s3 e, c.AddEntity s key = (s1, none) →
          c.StoreEntityMetaData s1 key emd = (s2, none) →
          c.AddToEntitiesToExpireAtBlock s2 emd.ExpiresAtBlock key = (s3, some e) →
          (Store (spy c) (s, []) key sender emd payload).1
              = (s3, [Call.AddEntity key, Call.StoreEntityMetaData key emd,
                  Call.AddToEntitiesToExpireAtBlock emd.ExpiresAtBlock key])
            ∧ (Store (spy c) (s, []) key sender emd payload).2 ≠ none)
      ∧ ((Store (spy c) (s, []) key sender emd payload).2 ≠ none →
          ∀ k p, Call.StorePayload k p ∉ (Store (spy c) (s, []) key sender emd payload).1.2) := by
  refine ⟨?_, ?_, ?_, ?_⟩
  · intro s1 e h1
    rw [Store_spy_fail1 c s s1 e key sender payload emd [] h1]
    simp
  · intro s1 s2 e h1 h2
    rw [Store_spy_fail2 c s s1 s2 e key sender payload emd [] h1 h2]
    simp
  · intro s1 s2 s3 e h1 h2 h3
    rw [Store_spy_fail3 c s s1 s2 s3 e key sender payload emd [] h1 h2 h3]
    simp
  · intro hfail k p
    rcases h1 : c.AddEntity s key with ⟨s1, _ | e⟩
    · rcases h2 : c.StoreEntityMetaData s1 key emd with ⟨s2, _ | e⟩
      · rcases h3 : c.AddToEntitiesToExpireAtBlock s2 emd.ExpiresAtBlock key with ⟨s3, _ | e⟩
        · rw [Store_spy_ok c s s1 s2 s3 key sender payload emd [] h1 h2 h3] at hfail
          exact absurd rfl hfail
        · rw [Store_spy_fail3 c s s1 s2 s3 e key sender payload emd [] h1 h2 h3]
          simp
      · rw [Store_spy_fail2 c s s1 s2 e key sender payload emd [] h1 h2]
        simp
    · rw [Store_spy_fail1 c s s1 e key sender payload emd [] h1]
      simp

/-- Witness of C6: the metadata store fails; the invocations are `AddEntity` and
`StoreEntityMetaData` only and `Store` returns an error. -/
theorem C6_abort_at_first_failure_witness :
    (Store (spy (faulty 2 sampleError)) (Layout.empty, []) sampleKey sampleOwner scenario
        samplePayload).1
      = ((Layout.AddEntity Layout.empty sampleKey).1,
          [Call.AddEntity sampleKey, Call.StoreEntityMetaData sampleKey scenario])
    ∧ (Store (spy (faulty 2 sampleError)) (Layout.empty, []) sampleKey sampleOwner scenario
        samplePayload).2 ≠ none :=
  (C6_abort_at_first_failure (faulty 2 sampleError) Layout.empty sampleKey sampleOwner
    samplePayload scenario).2.1 _ _ sampleError rfl rfl

end Entity

namespace Entity

/-- Claim C7: error wrapping. When `Store` fails, the error it returns wraps the error `e`
of the first failing collaborator (it unwraps to `e`) and its message is the step's prefix,
then `": "`, then the message of `e`: `failed to add entity to all entities` for
`AddEntity`, `failed to store entity meta data` for `StoreEntityMetaData`,
`failed to add entity to entities to expire` for `AddToEntitiesToExpireAtBlock`. -/
theorem C7_error_wrapping {σ : Type} (c : Collaborators σ) (s : σ)
    (key sender payload : Bytes) (emd : EntityMetaData) :
    (∀ s1 e, c.AddEntity s key = (s1, some e) →
        ∃ err, (Store c s key sender emd payload).2 = some err
          ∧ err.Error = "failed to add entity to all entities" ++ ": " ++ e.Error
          ∧ err.Unwrap = some e)
      ∧ (∀ s1 s2 e, c.AddEntity s key = (s1, none) →
          c.StoreEntityMetaData s1 key emd = (s2, some e) →
          ∃ err, (Store c s key sender emd payload).2 = some err
            ∧ err.Error = "failed to store entity meta data" ++ ": " ++ e.Error
            ∧ err.Unwrap = some e)
      ∧ (∀ s1 s2 s3 e, c.AddEntity s key = (s1, none) →
          c.StoreEntityMetaData s1 key emd = (s2, none) →
          c.AddToEntitiesToExpireAtBlock s2 emd.ExpiresAtBlock key = (s3, some e) →
          ∃ err, (Store c s key sender emd payload).2 = some err
            ∧ err.Error = "failed to add entity to entities to expire" ++ ": " ++ e.Error
            ∧ err.Unwrap = some e) := by
  refine ⟨?_, ?_, ?_⟩
  · intro s1 e h1
    rw [Store_fail1 c s s1 e key sender payload emd h1]
    exact ⟨_, rfl, rfl, rfl⟩
  · intro s1 s2 e h1 h2
    rw [Store_fail2 c s s1 s2 e key sender payload emd h1 h2]
    exact ⟨_, rfl, rfl, rfl⟩
  · intro s1 s2 s3 e h1 h2 h3
    rw [Store_fail3 c s s1 s2 s3 e key sender payload emd h1 h2 h3]
    exact ⟨_, rfl, rfl, rfl⟩

/-- Witness of C7: expiration registration fails with `state access failed`. -/
theorem C7_error_wrapping_witness :
    ∃ err, (Store (faulty 3 sampleError) Layout.empty sampleKey sampleOwner scenario
        samplePayload).2 = some err
      ∧ err.Error = "failed to add entity to entities to expire" ++ ": " ++ sampleError.Error
      ∧ err.Unwrap = some sampleError :=
  (C7_error_wrapping (faulty 3 sampleError) Layout.empty sampleKey sampleOwner
    samplePayload scenario).2.2 _ _ _ sampleError rfl rfl rfl

/-- Claim C8: the outcome of the payload store is not surfaced. `Store` returns `nil` if
and only if index registration, metadata store and expiration registration all succeed
(each on the state its predecessor left); and replacing `StorePayload` by any other
behaviour, a failing one included, does not change the value `Store` returns. -/
theorem C8_payload_outcome_not_surfaced {σ : Type} (c : Collaborators σ) (s : σ)
    (key sender payload : Bytes) (emd : EntityMetaData) :
    ((Store c s key sender emd payload).2 = none ↔
        ((c.AddEntity s key).2 = none
          ∧ (c.StoreEntityMetaData (c.AddEntity s key).1 key emd).2 = none
          ∧ (c.AddToEntitiesToExpireAtBlock
              (c.StoreEntityMetaData (c.AddEntity s key).1 key emd).1
              emd.ExpiresAtBlock key).2 = none))
      ∧ ∀ sp : σ → Bytes → Bytes → σ × Option GoError,
          (Store { c with StorePayload := sp } s key sender emd payload).2
            = (Store c s key sender emd payload).2 := by
  refine ⟨?_, ?_⟩
  · rcases h1 : c.AddEntity s key with ⟨s1, _ | e⟩
    · rcases h2 : c.StoreEntityMetaData s1 key emd with ⟨s2, _ | e⟩
      · rcases h3 : c.AddToEntitiesToExpireAtBlock s2 emd.ExpiresAtBlock key with ⟨s3, _ | e⟩
        · rw [Store_ok c s s1 s2 s3 key sender payload emd h1 h2 h3]
          simp [h3]
        · rw [Store_fail3 c s s1 s2 s3 e key sender payload emd h1 h2 h3]
          simp [h3]
      · rw [Store_fail2 c s s1 s2 e key sender payload emd h1 h2]
        simp
    · rw [Store_fail1 c s s1 e key sender payload emd h1]
      simp
  · intro sp
    rcases h1 : c.AddEntity s key with ⟨s1, _ | e⟩
    · rcases h2 : c.StoreEntityMetaData s1 key emd with ⟨s2, _ | e⟩
      · rcases h3 : c.AddToEntitiesToExpireAtBlock s2 emd.ExpiresAtBlock key with ⟨s3, _ | e⟩
        · rw [Store_ok c s s1 s2 s3 key sender payload emd h1 h2 h3,
            Store_ok { c with StorePayload := sp } s s1 s2 s3 key sender payload emd h1 h2 h3]
        · rw [Store_fail3 c s s1 s2 s3 e key sender payload emd h1 h2 h3,
            Store_fail3 { c with StorePayload := sp } s s1 s2 s3 e key sender payload emd
              h1 h2 h3]
      · rw [Store_fail2 c s s1 s2 e key sender payload emd h1 h2,
          Store_fail2 { c with StorePayload := sp } s s1 s2 e key sender payload emd h1 h2]
    · rw [Store_fail1 c s s1 e key sender payload emd h1,
        Store_fail1 { c with StorePayload := sp } s s1 e key sender payload emd h1]

/-- Witness of C8: with a failing payload store `Store` still returns `nil`, the value it
returns with the working one. -/
theorem C8_payload_outcome_not_surfaced_witness :
    (Store (faulty 4 sampleError) Layout.empty sampleKey sampleOwner scenario
        samplePayload).2 = none
      ∧ (Store { faulty 4 sampleError with StorePayload := Layout.StorePayload } Layout.empty
          sampleKey sampleOwner scenario samplePayload).2
        = (Store (faulty 4 sampleError) Layout.empty sampleKey sampleOwner scenario
            samplePayload).2 :=
  ⟨(C8_payload_outcome_not_surfaced (faulty 4 sampleError) Layout.empty sampleKey sampleOwner
      samplePayload scenario).1.mpr ⟨rfl, rfl, rfl⟩,
    (C8_payload_outcome_not_surfaced (faulty 4 sampleError) Layout.empty sampleKey sampleOwner
      samplePayload scenario).2 Layout.StorePayload⟩

/-- Claim C9: no rollback. When index registration succeeds (leaving `s1`, in which the key
is registered) and the metadata store or the expiration registration then fails, the state
`Store` leaves is exactly the state the last step that ran left: nothing is undone. So,
the later collaborators not touching the index, the key is still registered after the
failed call. -/
theorem C9_no_rollback {σ : Type} (c : Collaborators σ) (registered : σ → Bytes → Prop)
    (hmd : ∀ t k m k1, registered t k1 → registered (c.StoreEntityMetaData t k m).1 k1)
    (hexp : ∀ t b k k1, registered t k1 →
      registered (c.AddToEntitiesToExpireAtBlock t b k).1 k1)
    (s s1 : σ) (key sender payload : Bytes) (emd : EntityMetaData)
    (h1 : c.AddEntity s key = (s1, none)) (hreg : registered s1 key) :
    (∀ s2 e, c.StoreEntityMetaData s1 key emd = (s2, some e) →
        (Store c s key sender emd payload).1 = s2
          ∧ (Store c s key sender emd payload).2 ≠ none
          ∧ registered (Store c s key sender emd payload).1 key)
      ∧ (∀ s2 s3 e, c.StoreEntityMetaData s1 key emd = (s2, none) →
          c.AddToEntitiesToExpireAtBlock s2 emd.ExpiresAtBlock key = (s3, some e) →
          (Store c s key sender emd payload).1 = s3
            ∧ (Store c s key sender emd payload).2 ≠ none
            ∧ registered (Store c s key sender emd payload).1 key) := by
  refine ⟨?_, ?_⟩
  · intro s2 e h2
    rw [Store_fail2 c s s1 s2 e key sender payload emd h1 h2]
    have := hmd s1 key emd key hreg
    rw [h2] at this
    exact ⟨rfl, by simp, this⟩
  · intro s2 s3 e h2 h3
    rw [Store_fail3 c s s1 s2 s3 e key sender payload emd h1 h2 h3]
    have r2 := hmd s1 key emd key hreg
    rw [h2] at r2
    have r3 := hexp s2 emd.ExpiresAtBlock key key r2
    rw [h3] at r3
    exact ⟨rfl, by simp, r3⟩

/-- Witness of C9: expiration registration fails on the layout collaborators; the state
left is the one after the metadata store, and the key is in the set of all entities. -/
theorem C9_no_rollback_witness :
    (Store (faulty 3 sampleError) Layout.empty sampleKey sampleOwner scenario samplePayload).1
        = (Layout.StoreEntityMetaData (Layout.AddEntity Layout.empty sampleKey).1
            sampleKey scenario).1
      ∧ (Store (faulty 3 sampleError) Layout.empty sampleKey sampleOwner scenario
          samplePayload).2 ≠ none
      ∧ sampleKey ∈ (Store (faulty 3 sampleError) Layout.empty sampleKey sampleOwner scenario
          samplePayload).1.allEntities :=
  (C9_no_rollback (faulty 3 sampleError) (fun t k => k ∈ t.allEntities)
    (fun _ _ _ _ h => h)
    (fun t b k k1 h => by
      show k1 ∈ (if 3 = 3 then (t, some sampleError)
        else Layout.AddToEntitiesToExpireAtBlock t b k).1.allEntities
      exact h)
    Layout.empty (Layout.AddEntity Layout.empty sampleKey).1 sampleKey sampleOwner
    samplePayload scenario rfl (by decide)).2 _ _ sampleError rfl rfl

end Entity

namespace Entity

/-- Claim C10: a successful store is readable back. Over the persisted layout of the spec,
for every well-formed metadata `emd`, `Store` returns `nil`; afterwards the key is in the
set of all entities, it is in the expiration bucket of height `emd.ExpiresAtBlock`, and
the record under the key decodes (without error) to `emd` exactly; the key handed to every
step is the key given to `Store` and the height handed over is `emd.ExpiresAtBlock`. -/
theorem C10_store_readable (s : Layout) (key sender payload : Bytes)
    (emd m0 : EntityMetaData) (h : emd.WF) :
    (Store layoutCollaborators s key sender emd payload).2 = none
      ∧ key ∈ (Store layoutCollaborators s key sender emd payload).1.allEntities
      ∧ key ∈ (Store layoutCollaborators s key sender emd payload).1.entitiesToExpire
          emd.ExpiresAtBlock
      ∧ (∃ record, (Store layoutCollaborators s key sender emd payload).1.metaData key
            = some record ∧ DecodeRLP record m0 = (emd, none))
      ∧ (Store (spy layoutCollaborators) (s, []) key sender emd payload).1.2
          = [Call.AddEntity key, Call.StoreEntityMetaData key emd,
              Call.AddToEntitiesToExpireAtBlock emd.ExpiresAtBlock key,
              Call.StorePayload key payload] := by
  have hs := Store_ok layoutCollaborators s (Layout.AddEntity s key).1
    (Layout.StoreEntityMetaData (Layout.AddEntity s key).1 key emd).1
    (Layout.AddToEntitiesToExpireAtBlock
      (Layout.StoreEntityMetaData (Layout.AddEntity s key).1 key emd).1
      emd.ExpiresAtBlock key).1 key sender payload emd rfl rfl rfl
  have hspy := Store_spy_ok layoutCollaborators s (Layout.AddEntity s key).1
    (Layout.StoreEntityMetaData (Layout.AddEntity s key).1 key emd).1
    (Layout.AddToEntitiesToExpireAtBlock
      (Layout.StoreEntityMetaData (Layout.AddEntity s key).1 key emd).1
      emd.ExpiresAtBlock key).1 key sender payload emd [] rfl rfl rfl
  rw [hs, hspy]
  refine ⟨rfl, ?_, ?_, ⟨EncodeRLP emd, ?_, DecodeRLP_EncodeRLP emd m0 h⟩, by simp⟩
  · simp [layoutCollaborators, Layout.StorePayload, Layout.AddToEntitiesToExpireAtBlock,
      Layout.StoreEntityMetaData, Layout.AddEntity]
  · simp [layoutCollaborators, Layout.StorePayload, Layout.AddToEntitiesToExpireAtBlock,
      Layout.StoreEntityMetaData, Layout.AddEntity]
  · simp [layoutCollaborators, Layout.StorePayload, Layout.AddToEntitiesToExpireAtBlock,
      Layout.StoreEntityMetaData, Layout.AddEntity]

/-- Witness of C10, the scenario of the spec: expiry height 1000, created and last modified
at block 1, transaction and operation index 0, stored into the empty layout. -/
theorem C10_store_readable_witness :
    scenario.WF
      ∧ (Store layoutCollaborators Layout.empty sampleKey sampleOwner scenario
          samplePayload).2 = none
      ∧ sampleKey ∈ (Store layoutCollaborators Layout.empty sampleKey sampleOwner scenario
          samplePayload).1.allEntities
      ∧ sampleKey ∈ (Store layoutCollaborators Layout.empty sampleKey sampleOwner scenario
          samplePayload).1.entitiesToExpire scenario.ExpiresAtBlock
      ∧ (∃ record, (Store layoutCollaborators Layout.empty sampleKey sampleOwner scenario
            samplePayload).1.metaData sampleKey = some record
          ∧ DecodeRLP record zeroMetaData = (scenario, none))
      ∧ (Store (spy layoutCollaborators) (Layout.empty, []) sampleKey sampleOwner scenario
          samplePayload).1.2
          = [Call.AddEntity sampleKey, Call.StoreEntityMetaData sampleKey scenario,
              Call.AddToEntitiesToExpireAtBlock scenario.ExpiresAtBlock sampleKey,
              Call.StorePayload sampleKey samplePayload] :=
  ⟨by decide, C10_store_readable Layout.empty sampleKey sampleOwner samplePayload scenario
    zeroMetaData (by decide)⟩

end Entity

namespace Entity.rlp

/-! ## The encoder against the tree of items -/

theorem toBE_zero : toBE 0 = [] := by
  simp [toBE, toBEAux]

theorem writeString_of_length_ne_one (b : Bytes) (h : b.length ≠ 1) :
    writeString b = puthead 0x80 0xB7 b.length ++ b := by
  unfold writeString
  split
  · simp at h
  · rfl

theorem writeUint_eq_writeString (n : Nat) (h : n < 256 ^ 55) :
    writeUint n = writeString (toBE n) := by
  by_cases h0 : n = 0
  · subst h0
    simp [writeUint, toBE_zero, writeString, puthead]
  · have hl := toBE_length_le h
    have hv := beValue_toBE n
    unfold writeUint
    rw [if_neg h0]
    cases hb : toBE n with
    | nil => exact absurd hb (toBE_ne_nil h0)
    | cons x t =>
      rw [hb] at hl hv
      cases t with
      | nil =>
        have hx : x = n := by simpa [beValue] using hv
        subst hx
        by_cases h1 : x < 128
        · simp [writeString, h1]
        · simp [writeString, h1, puthead]
      | cons y t =>
        have h1 : ¬ n < 128 := by
          intro hlt
          have h2 := toBE_length_le (show n < 256 ^ 1 by omega)
          rw [hb] at h2
          simp at h2
        rw [if_neg h1, writeString_of_length_ne_one _ (by simp)]
        simp only [List.length_cons] at hl ⊢
        unfold puthead
        rw [if_pos (by omega)]
        simp

theorem writeByteArray_eq_writeString (b : Bytes) (h : b.length ≠ 1) :
    writeByteArray b = writeString b := by
  rw [writeString_of_length_ne_one b h]
  rfl

theorem encodeAll_map {α : Type} (f : α → Item) (g : α → Bytes) (xs : List α)
    (h : ∀ a ∈ xs, (f a).encode = g a) :
    Item.encodeAll (xs.map f) = writeElems g xs := by
  induction xs with
  | nil => simp [Item.encodeAll, writeElems]
  | cons x xs ih =>
    simp only [List.map_cons, Item.encodeAll, writeElems]
    rw [h x (List.mem_cons_self x xs), ih (fun a ha => h a (List.mem_cons_of_mem x ha))]

theorem lt_pow_of_lt_U64 {n : Nat} (h : n < U64) : n < 256 ^ 55 := by
  unfold U64 at h
  have : (2 : Nat) ^ 64 ≤ 256 ^ 55 := by norm_num
  omega

theorem lt_pow_of_lt_U256 {n : Nat} (h : n < U256) : n < 256 ^ 55 := by
  unfold U256 at h
  have : (2 : Nat) ^ 256 ≤ 256 ^ 55 := by norm_num
  omega

end Entity.rlp

namespace Entity

theorem EncodeRLP_eq_wireItem (m : EntityMetaData) (h : m.WF) :
    EncodeRLP m = (wireItem m).encode := by
  obtain ⟨hexp, hd, hc, hb, ha, hown, _, _, hna, _⟩ := h
  have hbi := blockInfo_eq m ha hb hc hd
  have hlt := blockInfo_lt m ha hb hc hd
  have hsa : rlp.Item.encodeAll
      (m.StringAnnotations.map fun a => rlp.Item.list [.str a.Key, .str a.Value])
      = rlp.writeElems rlp.writeStringAnn m.StringAnnotations :=
    rlp.encodeAll_map _ _ _ (fun a _ => by
      simp [rlp.Item.encode, rlp.Item.encodeAll, rlp.writeStringAnn])
  have hnu : rlp.Item.encodeAll
      (m.NumericAnnotations.map fun a => rlp.Item.list [.str a.Key, .str (rlp.toBE a.Value)])
      = rlp.writeElems rlp.writeNumericAnn m.NumericAnnotations :=
    rlp.encodeAll_map _ _ _ (fun a ha => by
      simp [rlp.Item.encode, rlp.Item.encodeAll, rlp.writeNumericAnn,
        rlp.writeUint_eq_writeString a.Value (rlp.lt_pow_of_lt_U64 (hna a ha).2)])
  unfold wireItem
  rw [← hbi]
  simp only [rlp.Item.encode, rlp.Item.encodeAll, rlp.Item.uint, hsa, hnu,
    EncodeRLP, rlp.Encode, rlp.encodePayload, EncodeRLP.encodable,
    rlp.writeUint_eq_writeString _ (rlp.lt_pow_of_lt_U64 hexp),
    rlp.writeUint_eq_writeString _ (rlp.lt_pow_of_lt_U256 hlt),
    rlp.writeByteArray_eq_writeString m.Owner (by omega), List.append_assoc, List.append_nil]

end Entity

namespace Entity.regexp

/-! ## The matcher on the annotation pattern -/

theorem starEnds_class_end (p : Char → Bool) (t : List Char) :
    ∀ (fuel : Nat) (b : Bool), t.length ≤ fuel →
      ((∃ st ∈ starEnds (fun st1 => ends (.CharClass p) st1) fuel (b, t), st.2 = [])
        ↔ ∀ d ∈ t, p d = true) := by
  induction t with
  | nil =>
    intro fuel b _
    cases fuel <;> simp [starEnds]
  | cons c t ih =>
    intro fuel b hf
    cases fuel with
    | zero => simp at hf
    | succ fuel =>
      have hf1 : t.length ≤ fuel := by simpa using hf
      have ih1 := ih fuel false hf1
      have hstep : ends (.CharClass p) (b, c :: t)
          = if p c = true then [(false, t)] else [] := rfl
      rw [starEnds]
      simp only [hstep]
      by_cases hp : p c = true
      · simp only [hp, if_true, List.filter_cons, List.length_cons, Nat.lt_succ_self,
          decide_True, List.filter_nil, List.flatMap_cons, List.flatMap_nil, List.append_nil,
          List.mem_cons, List.forall_mem_cons, true_and]
        constructor
        · rintro ⟨st, h | h, hst⟩
          · subst h; simp at hst
          · have hall := ih1.mp ⟨st, h, hst⟩
            intro d hd
            rcases hd with rfl | hd
            · exact hp
            · exact hall d hd
        · intro h
          obtain ⟨st, hmem, hst⟩ := ih1.mpr (fun d hd => h d (Or.inr hd))
          exact ⟨st, Or.inr hmem, hst⟩
      · simp [hp]

end Entity.regexp

namespace Entity

theorem ends_compiled_not_at_begin (L N : Char → Bool) (x : List Char) :
    regexp.ends (AnnotationIdentRegexCompiled L N) (false, x) = [] := by
  simp [AnnotationIdentRegexCompiled, regexp.ends]

theorem searchFrom_compiled_not_at_begin (L N : Char → Bool) (t : List Char) :
    regexp.searchFrom (AnnotationIdentRegexCompiled L N) false t = false := by
  induction t with
  | nil => simp [regexp.searchFrom, ends_compiled_not_at_begin]
  | cons c t ih => simp [regexp.searchFrom, ends_compiled_not_at_begin, ih]

theorem MatchString_compiled_eq (L N : Char → Bool) (s : List Char) :
    regexp.MatchString (AnnotationIdentRegexCompiled L N) s
      = !(regexp.ends (AnnotationIdentRegexCompiled L N) (true, s)).isEmpty := by
  cases s with
  | nil => simp [regexp.MatchString, regexp.searchFrom]
  | cons c t =>
    simp [regexp.MatchString, regexp.searchFrom, searchFrom_compiled_not_at_begin]

theorem flatMap_endText_ne_nil (l : List regexp.Position) :
    (l.flatMap fun st1 => regexp.ends .EndText st1) ≠ [] ↔ ∃ st ∈ l, st.2 = [] := by
  induction l with
  | nil => simp
  | cons a l ih =>
    by_cases ha : a.2 = []
    · simp [regexp.ends, ha]
    · have : a.2.isEmpty = false := by
        cases h : a.2 with
        | nil => exact absurd h ha
        | cons _ _ => rfl
      simp only [List.flatMap_cons, regexp.ends, this, Bool.false_eq_true, if_false,
        List.nil_append, List.mem_cons, exists_eq_or_imp, ha, false_or]
      exact ih

theorem MatchString_compiled_iff (L N : Char → Bool) (s : List Char) :
    regexp.MatchString (AnnotationIdentRegexCompiled L N) s = true
      ↔ ∃ c t, s = c :: t ∧ (L c = true ∨ c = '_')
          ∧ ∀ d ∈ t, (L d = true ∨ N d = true ∨ d = '_') := by
  rw [MatchString_compiled_eq]
  have hne : ∀ l : List regexp.Position, (!l.isEmpty) = true ↔ l ≠ [] := by
    intro l; cases l <;> simp
  rw [hne]
  have hR : regexp.ends (AnnotationIdentRegexCompiled L N) (true, s)
      = (regexp.ends (AnnotationIdentRegex L N) (true, s)).flatMap
          fun st1 => regexp.ends .EndText st1 := by
    simp [AnnotationIdentRegexCompiled, regexp.ends]
  rw [hR, flatMap_endText_ne_nil]
  cases s with
  | nil => simp [AnnotationIdentRegex, regexp.ends]
  | cons c t =>
    have hstar := regexp.starEnds_class_end (fun c => L c || N c || c == '_') t t.length false
      (le_refl _)
    by_cases hc : (L c || c == '_') = true
    · have hI : regexp.ends (AnnotationIdentRegex L N) (true, c :: t)
          = regexp.starEnds
              (fun st1 => regexp.ends (.CharClass fun c => L c || N c || c == '_') st1)
              t.length (false, t) := by
        simp [AnnotationIdentRegex, regexp.ends, hc]
      rw [hI, hstar]
      simp only [Bool.or_eq_true, beq_iff_eq] at hc ⊢
      constructor
      · intro h
        exact ⟨c, t, rfl, hc, fun d hd => by simpa [or_assoc] using h d hd⟩
      · rintro ⟨c1, t1, heq, _, h⟩
        obtain ⟨rfl, rfl⟩ := List.cons.inj heq
        intro d hd
        simpa [or_assoc] using h d hd
    · have hI : regexp.ends (AnnotationIdentRegex L N) (true, c :: t) = [] := by
        simp [AnnotationIdentRegex, regexp.ends, hc]
      rw [hI]
      simp only [Bool.or_eq_true, beq_iff_eq] at hc
      constructor
      · rintro ⟨st, hmem, _⟩
        simp at hmem
      · rintro ⟨c1, t1, heq, h1, _⟩
        obtain ⟨rfl, rfl⟩ := List.cons.inj heq
        exact absurd h1 hc

end Entity

namespace Entity

/-! ## Claims about the wire form, the key grammar and the frame -/

/-- Claim C11: wire field order. For every well-formed `m` the bytes `EncodeRLP` writes
are the canonical encoding of one list of five items, in this order: the expiry height as
an integer, the list of string annotations (each a pair `[key, value]`), the list of
numeric annotations (each a pair `[key, value]`), the 20-byte owner, the packed
`blockInfo` integer. The expiry height is a field of its own: the wire form carries it
unchanged and `blockInfo` does not depend on it. -/
theorem C11_wire_field_order (m : EntityMetaData) (h : m.WF) :
    EncodeRLP m = (wireItem m).encode
      ∧ (EncodeRLP.encodable m).ExpiresAtBlock = m.ExpiresAtBlock
      ∧ ∀ x : Nat, (EncodeRLP.encodable { m with ExpiresAtBlock := x }).BlockInfo
          = (EncodeRLP.encodable m).BlockInfo :=
  ⟨EncodeRLP_eq_wireItem m h, rfl, fun _ => rfl⟩

/-- Witness of C11 at the record of the scenario. -/
theorem C11_wire_field_order_witness :
    scenario.WF
      ∧ (EncodeRLP scenario = (wireItem scenario).encode
        ∧ (EncodeRLP.encodable scenario).ExpiresAtBlock = scenario.ExpiresAtBlock
        ∧ ∀ x : Nat, (EncodeRLP.encodable { scenario with ExpiresAtBlock := x }).BlockInfo
            = (EncodeRLP.encodable scenario).BlockInfo) :=
  ⟨by decide, C11_wire_field_order scenario (by decide)⟩

/-- Claim C12: annotation key grammar. Whatever the tables of the categories L and N,
`AnnotationIdentRegexCompiled` matches a string if and only if the string is not empty,
its first rune is of category L or an underscore, and every later rune is of category L,
of category N or an underscore. The anchors put the whole string to the test: the pattern
without them finds a match inside `$a` followed by a newline, the compiled one does not. -/
theorem C12_annotation_key_grammar (L N : Char → Bool) (s : List Char) :
    (regexp.MatchString (AnnotationIdentRegexCompiled L N) s = true
      ↔ ∃ c t, s = c :: t ∧ (L c = true ∨ c = '_')
          ∧ ∀ d ∈ t, (L d = true ∨ N d = true ∨ d = '_'))
    ∧ regexp.MatchString (AnnotationIdentRegex asciiL asciiN) ['$', 'a', '\n'] = true
    ∧ regexp.MatchString (AnnotationIdentRegexCompiled asciiL asciiN) ['$', 'a', '\n'] = false :=
  ⟨MatchString_compiled_iff L N s, by decide, by decide⟩

/-- Witness of C12: the key `a_1` is accepted. -/
theorem C12_annotation_key_grammar_witness :
    regexp.MatchString (AnnotationIdentRegexCompiled asciiL asciiN) ['a', '_', '1'] = true :=
  (C12_annotation_key_grammar asciiL asciiN ['a', '_', '1']).1.mpr
    ⟨'a', ['_', '1'], rfl, Or.inl (by decide), by decide⟩

/-- Claim C13: reserved prefixes are rejected. With tables in which neither `$` nor the
digit `0` is of category L, `AnnotationIdentRegexCompiled` matches no string that begins
with `$` and no string that begins with `0x`. -/
theorem C13_reserved_prefixes (L N : Char → Bool) (hdollar : L '$' = false)
    (hzero : L '0' = false) (s : List Char)
    (hs : s.head? = some '$' ∨ s.take 2 = ['0', 'x']) :
    regexp.MatchString (AnnotationIdentRegexCompiled L N) s = false := by
  rw [Bool.eq_false_iff]
  intro hm
  obtain ⟨c, t, rfl, hc, _⟩ := (MatchString_compiled_iff L N s).mp hm
  have hc0 : c = '$' ∨ c = '0' := by
    rcases hs with h | h
    · left; simpa using h
    · right
      cases t with
      | nil => simp at h
      | cons d t => simp at h; exact h.1
  rcases hc0 with rfl | rfl
  · rcases hc with h | h
    · rw [hdollar] at h; exact Bool.noConfusion h
    · exact absurd h (by decide)
  · rcases hc with h | h
    · rw [hzero] at h; exact Bool.noConfusion h
    · exact absurd h (by decide)

/-- Witness of C13: `$owner` and `0x1f` are not annotation keys. -/
theorem C13_reserved_prefixes_witness :
    regexp.MatchString (AnnotationIdentRegexCompiled asciiL asciiN)
        ['$', 'o', 'w', 'n', 'e', 'r'] = false
      ∧ regexp.MatchString (AnnotationIdentRegexCompiled asciiL asciiN)
        ['0', 'x', '1', 'f'] = false :=
  ⟨C13_reserved_prefixes asciiL asciiN (by decide) (by decide) _ (Or.inl rfl),
    C13_reserved_prefixes asciiL asciiN (by decide) (by decide) _ (Or.inr rfl)⟩

/-- Claim C14: lane packing is a bijection. For every wire-form record whose `blockInfo`
is a 256-bit value, unpacking it as `DecodeRLP` does and packing the four counters again
as `EncodeRLP` does gives the same `blockInfo`, indeed the same record; the top lane, read
after the third right shift, is the whole of what is left, so no bit is dropped. -/
theorem C14_lane_bijection (e : EncodableEntityMetaData) (h : e.BlockInfo < U256) :
    EncodeRLP.blockInfo (DecodeRLP.assemble e) = e.BlockInfo
      ∧ EncodeRLP.encodable (DecodeRLP.assemble e) = e
      ∧ (DecodeRLP.assemble e).OperationIndex = e.BlockInfo / 2 ^ 192 := by
  unfold U256 at h
  have h1 : EncodeRLP.blockInfo (DecodeRLP.assemble e) = e.BlockInfo := by
    simp only [EncodeRLP.blockInfo, DecodeRLP.assemble, uint256.NewInt, uint256.Lsh,
      uint256.AddUint64, uint256.Uint64, uint256.Rsh, U64, U256]
    omega
  refine ⟨h1, ?_, ?_⟩
  · cases e
    simp only [EncodeRLP.encodable, EncodableEntityMetaData.mk.injEq, true_and]
    exact ⟨rfl, rfl, rfl, rfl, h1⟩
  · simp only [DecodeRLP.assemble, uint256.Uint64, uint256.Rsh, U64]
    omega

/-- Witness of C14 at the largest 256-bit value. -/
theorem C14_lane_bijection_witness :
    EncodeRLP.blockInfo (DecodeRLP.assemble ⟨0, [], [], sampleOwner, 2 ^ 256 - 1⟩)
        = 2 ^ 256 - 1
      ∧ EncodeRLP.encodable (DecodeRLP.assemble ⟨0, [], [], sampleOwner, 2 ^ 256 - 1⟩)
        = ⟨0, [], [], sampleOwner, 2 ^ 256 - 1⟩
      ∧ (DecodeRLP.assemble ⟨0, [], [], sampleOwner, 2 ^ 256 - 1⟩).OperationIndex
        = (2 ^ 256 - 1) / 2 ^ 192 :=
  C14_lane_bijection ⟨0, [], [], sampleOwner, 2 ^ 256 - 1⟩ (by decide)

end Entity

namespace Entity

/-- Claim C15: `Store` does not depend on the sender. For any two senders `Store` returns
the same error and leaves the same state, and on a spy it makes the same invocations with
the same arguments. The metadata handed to `StoreEntityMetaData` is `emd` itself, so the
owner persisted is `emd.Owner`; over the persisted layout the record stored under the key
is the encoding of `emd`, whatever the sender. -/
theorem C15_sender_independent {σ : Type} (c : Collaborators σ) (s : σ)
    (key sender1 sender2 payload : Bytes) (emd : EntityMetaData) (t : Layout) :
    Store c s key sender1 emd payload = Store c s key sender2 emd payload
      ∧ Store (spy c) (s, []) key sender1 emd payload
          = Store (spy c) (s, []) key sender2 emd payload
      ∧ (∀ k m, Call.StoreEntityMetaData k m
            ∈ (Store (spy c) (s, []) key sender1 emd payload).1.2 →
          k = key ∧ m = emd ∧ m.Owner = emd.Owner)
      ∧ (Store layoutCollaborators t key sender1 emd payload).1.metaData key
          = some (EncodeRLP emd) := by
  refine ⟨rfl, rfl, ?_, ?_⟩
  · intro k m hmem
    have hkm : k = key ∧ m = emd := by
      rcases h1 : c.AddEntity s key with ⟨s1, _ | e⟩
      · rcases h2 : c.StoreEntityMetaData s1 key emd with ⟨s2, _ | e⟩
        · rcases h3 : c.AddToEntitiesToExpireAtBlock s2 emd.ExpiresAtBlock key
            with ⟨s3, _ | e⟩
          · rw [Store_spy_ok c s s1 s2 s3 key sender1 payload emd [] h1 h2 h3] at hmem
            simpa using hmem
          · rw [Store_spy_fail3 c s s1 s2 s3 e key sender1 payload emd [] h1 h2 h3] at hmem
            simpa using hmem
        · rw [Store_spy_fail2 c s s1 s2 e key sender1 payload emd [] h1 h2] at hmem
          simpa using hmem
      · rw [Store_spy_fail1 c s s1 e key sender1 payload emd [] h1] at hmem
        simp at hmem
    exact ⟨hkm.1, hkm.2, by rw [hkm.2]⟩
  · rw [Store_ok layoutCollaborators t (Layout.AddEntity t key).1
      (Layout.StoreEntityMetaData (Layout.AddEntity t key).1 key emd).1
      (Layout.AddToEntitiesToExpireAtBlock
        (Layout.StoreEntityMetaData (Layout.AddEntity t key).1 key emd).1
        emd.ExpiresAtBlock key).1 key sender1 payload emd rfl rfl rfl]
    simp [layoutCollaborators, Layout.StorePayload, Layout.AddToEntitiesToExpireAtBlock,
      Layout.StoreEntityMetaData, Layout.AddEntity]

/-- Witness of C15: a sender that is not the owner gives what the owner as sender gives,
and the record stored is the encoding of the metadata of the scenario. -/
theorem C15_sender_independent_witness :
    sampleSender ≠ scenario.Owner
      ∧ Store (spy layoutCollaborators) (Layout.empty, []) sampleKey sampleSender scenario
          samplePayload
        = Store (spy layoutCollaborators) (Layout.empty, []) sampleKey sampleOwner scenario
          samplePayload
      ∧ (Store layoutCollaborators Layout.empty sampleKey sampleSender scenario
          samplePayload).1.metaData sampleKey = some (EncodeRLP scenario) :=
  ⟨by decide,
    (C15_sender_independent layoutCollaborators Layout.empty sampleKey sampleSender
      sampleOwner samplePayload scenario Layout.empty).2.1,
    (C15_sender_independent layoutCollaborators Layout.empty sampleKey sampleSender
      sampleOwner samplePayload scenario Layout.empty).2.2.2⟩

/-- Claim C16: decode overwrites the receiver completely. On every stream, `DecodeRLP`
leaves the same value in the receiver whatever the receiver held before: all eight fields
come from the decoded wire record, the expiry height, both annotation lists and the owner
as they are and the four counters as the lanes of `blockInfo`. -/
theorem C16_decode_overwrites (s : Bytes) (m1 m2 : EntityMetaData) :
    DecodeRLP s m1 = DecodeRLP s m2
      ∧ (DecodeRLP s m1).1.ExpiresAtBlock = (rlp.Decode s).1.ExpiresAtBlock
      ∧ (DecodeRLP s m1).1.StringAnnotations = (rlp.Decode s).1.StringAnnotations
      ∧ (DecodeRLP s m1).1.NumericAnnotations = (rlp.Decode s).1.NumericAnnotations
      ∧ (DecodeRLP s m1).1.Owner = (rlp.Decode s).1.Owner
      ∧ (DecodeRLP s m1).1.CreatedAtBlock = (rlp.Decode s).1.BlockInfo % 2 ^ 64
      ∧ (DecodeRLP s m1).1.LastModifiedAtBlock = (rlp.Decode s).1.BlockInfo / 2 ^ 64 % 2 ^ 64
      ∧ (DecodeRLP s m1).1.TransactionIndex = (rlp.Decode s).1.BlockInfo / 2 ^ 128 % 2 ^ 64
      ∧ (DecodeRLP s m1).1.OperationIndex = (rlp.Decode s).1.BlockInfo / 2 ^ 192 % 2 ^ 64
      ∧ DecodeRLP truncated boundary = DecodeRLP truncated zeroMetaData := by
  refine ⟨rfl, rfl, rfl, rfl, rfl, rfl, rfl, ?_, ?_, rfl⟩
  · simp only [DecodeRLP, DecodeRLP.assemble, uint256.Uint64, uint256.Rsh, U64]
    rw [Nat.div_div_eq_div_mul]; norm_num
  · simp only [DecodeRLP, DecodeRLP.assemble, uint256.Uint64, uint256.Rsh, U64]
    rw [Nat.div_div_eq_div_mul, Nat.div_div_eq_div_mul]; norm_num

end Entity
